import Mathlib

/-!
# Verification of the restricted launcher `Programs/spython.c`

A shallow embedding of the audit hooks, the import gate and the launcher entry
point of `spython.c`, followed by theorems about them.

Conventions of the embedding:

* a C string is the list of bytes in front of its terminating NUL;
* a Python `str` handed to the import gate and a `wchar_t` string of `argv` are
  lists of code points, lone surrogates included (`PyStr`, `WideStr`); a call
  that reads through a NULL pointer ends the run (`GateResult.crashed`);
* the signedness of `char` is implementation-defined, so it is a field of
  `Runtime`: a byte read through `char *` is `-128 .. 127` where `char` is signed;
* a `FILE *` is a handle (`FILE`) into the streams held by `World`;
* the interpreter state the code touches (error indicator, initialisation flag,
  hardening flags) and the order of its calls into the runtime are fields of
  `World`;
* what the runtime computes and this file cannot see (the rendering of an
  object, the outcome of a system call, the value of an opcode constant, the
  conversion `%ls` makes in the locale in force) is taken as a parameter
  (`Runtime`, `Host`);
* the run of the script is a parameter too (`ScriptRun`): `PyRun_SimpleFile`
  returns, or the process exits inside it (`Outcome.exitedInside`); the other
  calls into the runtime are taken to return.
-/

namespace SPython

/-! ## C strings -/

/-- The C string that starts at the beginning of a buffer: the bytes in front of
the first NUL. -/
def cstr (buf : List UInt8) : List UInt8 :=
  buf.takeWhile (fun b => b != 0)

/-- The call `strrchr(s, c)`: the suffix of `s` that starts at the last occurrence of `c`,
or `none` (NULL) when `c` does not occur. For `c = 0` the terminator matches. -/
def strrchr : List UInt8 → UInt8 → Option (List UInt8)
  | [], c => if c = 0 then some [] else none
  | b :: rest, c =>
    match strrchr rest c with
    | some r => some r
    | none => if b = c then some (b :: rest) else none

/-- The function `tolower` of the C locale on one byte. -/
def tolower (b : UInt8) : UInt8 :=
  if 65 ≤ b.toNat ∧ b.toNat ≤ 90 then b + 32 else b

/-- The call `strcmpi(a, b)`: compares two C strings byte by byte after `tolower`; the
result is zero exactly when they agree, otherwise the difference of the first
pair of bytes that differ (the terminator counts as 0). -/
def strcmpi : List UInt8 → List UInt8 → Int
  | [], [] => 0
  | [], b :: _ => 0 - ((tolower b).toNat : Int)
  | a :: _, [] => ((tolower a).toNat : Int)
  | a :: as, b :: bs =>
    if tolower a = tolower b then strcmpi as bs
    else ((tolower a).toNat : Int) - ((tolower b).toNat : Int)

/-- The UTF-8 encoding of a text. It holds NUL bytes when the text holds NUL
characters. -/
def utf8Bytes (s : String) : List UInt8 :=
  s.data.flatMap String.utf8EncodeChar

/-- The byte `'.'`. -/
def dotByte : UInt8 := 46

/-- The C string literal `".py"`. -/
def dotPy : List UInt8 := [46, 112, 121]

/-- Lines 394-395 of `spython_open_for_import` for the buffer `utf8` that
`PyUnicode_AsUTF8(path)` returned: `ext = strrchr(utf8, '.')` and
`disallow = !ext || strcmpi(ext, ".py") != 0`. -/
def disallow (utf8 : List UInt8) : Bool :=
  match strrchr (cstr utf8) dotByte with
  | none => true
  | some ext => strcmpi ext dotPy != 0

/-! ## Strings of code points -/

/-- A code point of a Python `str` or of a `wchar_t` string: a Unicode scalar
value, or the lone surrogate `U+D800 + offset`. -/
inductive CodePoint where
  | scalar (c : Char)
  | surrogate (offset : Fin 2048)
deriving DecidableEq, Repr

/-- The characters of a list of code points, `none` when it holds a lone
surrogate. -/
def scalars : List CodePoint → Option (List Char)
  | [] => some []
  | .scalar c :: rest => (scalars rest).map (fun cs => c :: cs)
  | .surrogate _ :: _ => none

/-- The code points of a text. -/
def wide (s : String) : List CodePoint :=
  s.data.map CodePoint.scalar

/-- A `wchar_t` string, as `Py_DecodeLocale` and `wmain` hand them to the
launcher. -/
abbrev WideStr := List CodePoint

/-- A Python `str` object. -/
structure PyStr where
  points : List CodePoint
deriving DecidableEq, Repr

/-- The `str` with the code points of a text. -/
def PyStr.ofString (s : String) : PyStr :=
  ⟨wide s⟩

/-- The text of a `str`, `none` when it holds a lone surrogate. -/
def PyStr.text (s : PyStr) : Option String :=
  (scalars s.points).map String.mk

/-- The call `PyUnicode_AsUTF8(path)`: the UTF-8 buffer of the `str`, or `none`
for NULL when the `str` holds a lone surrogate, which UTF-8 cannot encode. -/
def PyUnicode_AsUTF8 (s : PyStr) : Option (List UInt8) :=
  s.text.map utf8Bytes

/-- The value passed to `PyBool_FromLong(!disallow)`: the decision of the gate
on a path, `none` when there is no buffer to decide on. -/
def allowed (path : PyStr) : Option Bool :=
  (PyUnicode_AsUTF8 path).map (fun utf8 => !disallow utf8)

/-! ## Runtime values and interpreter state -/

/-- The objects the hooks can tell apart. Every object of another type is an
`object`, known only through what the runtime says about it. -/
inductive PyObject where
  | none
  | bool (b : Bool)
  | long (v : Int)
  | unicode (s : String)
  | bytes (data : List UInt8)
  | object (id : Nat)
deriving DecidableEq, Repr

/-- An exception in the error indicator: its type and its message. -/
structure PyErr where
  type : String
  msg : String
deriving DecidableEq, Repr

/-- What the hooks ask of the runtime and of the build, taken as given. -/
structure Runtime where
  /-- The call `PyObject_Repr` of an object. -/
  repr : PyObject → Except PyErr String
  /-- The call `PyObject_Str` of an object that is not an exact `str`. -/
  str : PyObject → Except PyErr String
  /-- The call `PyObject_Repr` of an argument tuple with the given items. -/
  reprTuple : List PyObject → Except PyErr String
  /-- The call `PyObject_IsTrue` of an `object`. -/
  isTrue : Nat → Except PyErr Bool
  /-- The call `PyLong_AsLong` of an `object`. -/
  asLong : Nat → Except PyErr Int
  /-- The call `Py_TYPE` of an object. -/
  typeOf : PyObject → PyObject
  /-- The text `%p` prints for the address of an object. -/
  pointer : PyObject → String
  /-- The opcode `STORE_FAST` of `opcode.h`. -/
  STORE_FAST : UInt8
  /-- Whether the C type `long` has 64 bits on this build (otherwise 32). -/
  long64 : Bool
  /-- The message `PyErr_BadInternalCall` sets, which names a file and a line of
  the runtime. -/
  badInternalCall : String
  /-- Whether `char` is a signed type on this build. -/
  charSigned : Bool

/-- The three streams the launcher writes to. -/
inductive FILE where
  | stdout
  | stderr
  | log
deriving DecidableEq, Repr

/-- A stream: the texts written to it, one per `fprintf`, and whether it has been
closed. -/
structure Stream where
  written : List String := []
  closed : Bool := false
deriving DecidableEq, Repr

/-- A call the launcher makes into the runtime or the operating system. -/
inductive Call where
  | PySys_Audit (event : String) (args : List PyObject)
  | PyImport_ImportModule (name : String)
  | PyUnicode_AsWideCharString (path : String)
  | CreateFileW (path : String)
  | open_osfhandle (handle : Nat)
  | CloseHandle (handle : Nat)
  | io_open_fd (fd : Int)
  | io_open_path (path : String)
  | Py_FatalError (msg : String)
  | PySys_AddAuditHook (userData : FILE)
  | PyImport_SetOpenForImportHook
  | Py_SetProgramName (name : WideStr)
  | Py_Initialize
  | PySys_SetArgv (argv : List WideStr)
  | PyRun_InteractiveLoop
  | Py_wfopen (path : WideStr)
  | PyRun_SimpleFile
  | PyErr_Clear
  | fclose_fp
  | Py_Finalize
deriving DecidableEq, Repr

/-- The state the code reads and writes. -/
structure World where
  stdout : Stream := {}
  stderr : Stream := {}
  log : Stream := {}
  /-- The error indicator of the interpreter. -/
  pyErr : Option PyErr := none
  /-- The value of `Py_IsInitialized()`. -/
  pyReady : Bool := false
  /-- The function-static `io` of `spython_open_for_import`. -/
  io : Option PyObject := none
  Py_IgnoreEnvironmentFlag : Int := 0
  Py_NoSiteFlag : Int := 0
  Py_NoUserSiteDirectory : Int := 0
  Py_DontWriteBytecodeFlag : Int := 0
  /-- The calls made so far, oldest first. -/
  calls : List Call := []
deriving DecidableEq, Repr

/-- The stream behind a handle. -/
def World.stream (w : World) : FILE → Stream
  | .stdout => w.stdout
  | .stderr => w.stderr
  | .log => w.log

/-- Replace the stream behind a handle. -/
def World.setStream (w : World) (f : FILE) (s : Stream) : World :=
  match f with
  | .stdout => { w with stdout := s }
  | .stderr => { w with stderr := s }
  | .log => { w with log := s }

/-- The call `fprintf(f, ...)` with the formatted text `text`. Writing to a closed stream is
undefined in C; here it leaves the stream as it is. -/
def fprintf (w : World) (f : FILE) (text : String) : World :=
  if (w.stream f).closed then w
  else w.setStream f { w.stream f with written := (w.stream f).written ++ [text] }

/-- The call `fclose(f)`. -/
def fclose (w : World) (f : FILE) : World :=
  w.setStream f { w.stream f with closed := true }

/-- The call `PyErr_SetString(type, msg)` and every other way of setting the indicator. -/
def World.setErr (w : World) (e : PyErr) : World :=
  { w with pyErr := some e }

/-- Record a call. -/
def World.call (w : World) (c : Call) : World :=
  { w with calls := w.calls ++ [c] }

/-- What `%s` prints for the UTF-8 buffer of a `str`: the text in front of its
first NUL character. -/
def cText (s : String) : String :=
  ⟨s.data.takeWhile (fun c => c != '\x00')⟩

/-- The text of `fprintf(audit_log, "%s: %s\n", event, PyUnicode_AsUTF8(msg))`. -/
def logLine (event msg : String) : String :=
  event ++ ": " ++ cText msg ++ "\n"

/-- The call `PyObject_Str`: an exact `str` is returned as it is. -/
def PyObject_Str (rt : Runtime) : PyObject → Except PyErr String
  | .unicode s => .ok s
  | o => rt.str o

/-- The conversion `%S` of `PyUnicode_FromFormat`; a NULL argument prints as
`<NULL>` (release build). -/
def fmtS (rt : Runtime) : Option PyObject → Except PyErr String
  | none => .ok "<NULL>"
  | some o => PyObject_Str rt o

/-- The conversion `%R` of `PyUnicode_FromFormat`; a NULL argument prints as
`<NULL>` (release build). -/
def fmtR (rt : Runtime) : Option PyObject → Except PyErr String
  | none => .ok "<NULL>"
  | some o => rt.repr o

/-- The call `PyObject_IsTrue`: the built-in truth values, the runtime for the rest. -/
def PyObject_IsTrue (rt : Runtime) : PyObject → Except PyErr Bool
  | .none => .ok false
  | .bool b => .ok b
  | .long v => .ok (v != 0)
  | .unicode s => .ok (s.length != 0)
  | .bytes d => .ok (d.length != 0)
  | .object id => rt.isTrue id

/-- The C test `if (PyObject_IsTrue(x))`: the error result `-1` is non-zero, so
it takes the true branch with the error left in the indicator. -/
def isTrueTest (rt : Runtime) (o : PyObject) (w : World) : Bool × World :=
  match PyObject_IsTrue rt o with
  | .ok b => (b, w)
  | .error e => (true, w.setErr e)

/-- The call `PyTuple_GetItem(args, i)`: NULL with `IndexError` set when `i` is out of
range. -/
def PyTuple_GetItem (args : List PyObject) (i : Nat) (w : World) : Option PyObject × World :=
  match args.get? i with
  | some o => (some o, w)
  | none => (none, w.setErr ⟨"IndexError", "tuple index out of range"⟩)

/-- The error of `PyArg_ParseTuple` for a tuple of the wrong length. -/
def countError (want given : Nat) : PyErr :=
  ⟨"TypeError", "function takes exactly " ++ toString want ++
    (if want = 1 then " argument (" else " arguments (") ++ toString given ++ " given)"⟩

def INT_MAX : Int := 2147483647

def INT_MIN : Int := -2147483648

/-- The largest value of the C type `long`. -/
def LONG_MAX (rt : Runtime) : Int :=
  if rt.long64 then 9223372036854775807 else 2147483647

/-- The smallest value of the C type `long`. -/
def LONG_MIN (rt : Runtime) : Int :=
  if rt.long64 then -9223372036854775808 else -2147483648

/-- The format unit `i` of `PyArg_ParseTuple`: `PyLong_AsLong`, which fails on an
`int` beyond the range of `long`, then the range check against `int`. -/
def convertInt (rt : Runtime) (o : PyObject) : Except PyErr Int :=
  let asLong : Except PyErr Int :=
    match o with
    | .long v =>
      if v > LONG_MAX rt ∨ v < LONG_MIN rt then
        .error ⟨"OverflowError", "Python int too large to convert to C long"⟩
      else .ok v
    | .bool b => .ok (if b then 1 else 0)
    | .object id => rt.asLong id
    | _ => .error ⟨"TypeError", "an integer is required"⟩
  match asLong with
  | .error e => .error e
  | .ok v =>
    if v > INT_MAX then .error ⟨"OverflowError", "signed integer is greater than maximum"⟩
    else if v < INT_MIN then .error ⟨"OverflowError", "signed integer is less than minimum"⟩
    else .ok v

/-- A byte read through `char *` and promoted to `int`. -/
def charVal (rt : Runtime) (b : UInt8) : Int :=
  if rt.charSigned ∧ 128 ≤ b.toNat then (b.toNat : Int) - 256 else (b.toNat : Int)

/-- Hexadecimal digits of a natural number. -/
def hexDigits (n : Nat) : String :=
  ⟨Nat.toDigits 16 n⟩

/-- The call `_PyLong_Format(v, 16)` for an `int`. -/
def formatHex (v : Int) : String :=
  if v < 0 then "-0x" ++ hexDigits v.natAbs else "0x" ++ hexDigits v.natAbs

/-! ## The audit hooks

Every hook returns the C result (`0` lets the operation go on, `-1` vetoes it)
and the new state. -/

/-- The function `hook_clearaudithooks` (spython.c, lines 31-41). -/
def hook_clearaudithooks (event : String) (_args : List PyObject) (audit_log : FILE)
    (w : World) : Int × World :=
  let w := fprintf w audit_log (event ++ ": closing log\n")
  let w := if audit_log ≠ FILE.stderr then fclose w audit_log else w
  (0, w)

/-- The function `hook_addaudithook` (spython.c, lines 43-51). -/
def hook_addaudithook (event : String) (_args : List PyObject) (audit_log : FILE)
    (w : World) : Int × World :=
  let w := fprintf w audit_log (event ++ ": hook was not added\n")
  let w := w.setErr ⟨"SystemError", "hook not permitted"⟩
  (-1, w)

/-- The function `hook_open_for_import` (spython.c, lines 53-70). -/
def hook_open_for_import (rt : Runtime) (event : String) (args : List PyObject)
    (audit_log : FILE) (w : World) : Int × World :=
  let (path, w) := PyTuple_GetItem args 0 w
  let (disallow, w) := PyTuple_GetItem args 1 w
  let msg : Except PyErr String := do
    let p ← fmtS rt path
    let d ← fmtS rt disallow
    pure ("'" ++ p ++ "'; allowed = " ++ d)
  match msg with
  | .error e => (-1, w.setErr e)
  | .ok msg => (0, fprintf w audit_log (logLine event msg))

/-- The function `hook_import` (spython.c, lines 72-101). -/
def hook_import (rt : Runtime) (event : String) (args : List PyObject)
    (audit_log : FILE) (w : World) : Int × World :=
  match args with
  | [module, filename, sysPath, sysMetaPath, sysPathHooks] =>
    let (known, w) := isTrueTest rt filename w
    let msg : Except PyErr String :=
      if known then do
        let m ← fmtS rt (some module)
        let f ← fmtS rt (some filename)
        pure ("importing " ++ m ++ " from " ++ f)
      else do
        let m ← fmtS rt (some module)
        let p ← fmtS rt (some sysPath)
        let mp ← fmtS rt (some sysMetaPath)
        let ph ← fmtS rt (some sysPathHooks)
        pure ("importing " ++ m ++ ":\n    sys.path=" ++ p ++ "\n    sys.meta_path=" ++ mp ++
          "\n    sys.path_hooks=" ++ ph)
    match msg with
    | .error e => (-1, w.setErr e)
    | .ok msg => (0, fprintf w audit_log (logLine event msg))
  | _ => (-1, w.setErr (countError 5 args.length))

/-- The preview of `hook_compile`: a text of more than 200 code points is cut to
its first 200 and `...` is appended. -/
def preview (code : String) : String :=
  if code.length > 200 then (⟨code.data.take 200⟩ : String) ++ "..." else code

/-- The function `hook_compile` (spython.c, lines 103-147). -/
def hook_compile (rt : Runtime) (event : String) (args : List PyObject)
    (audit_log : FILE) (w : World) : Int × World :=
  match args with
  | [code, filename] =>
    let text : Except PyErr String :=
      match code with
      | .unicode s => .ok s
      | o => rt.repr o
    match text with
    | .error e => (-1, w.setErr e)
    | .ok text =>
      let code := PyObject.unicode (preview text)
      let (named, w) := isTrueTest rt filename w
      let msg : Except PyErr String :=
        if named then
          if code = PyObject.none then do
            let f ← fmtS rt (some filename)
            pure ("compiling from file " ++ f)
          else do
            let f ← fmtS rt (some filename)
            let c ← fmtS rt (some code)
            pure ("compiling " ++ f ++ ": " ++ c)
        else do
          let c ← fmtR rt (some code)
          pure ("compiling: " ++ c)
      match msg with
      | .error e => (-1, w.setErr e)
      | .ok msg => (0, fprintf w audit_log (logLine event msg))
  | _ => (-1, w.setErr (countError 2 args.length))

/-- The loop of `hook_code_new` over the bytecode, two bytes at a time: the
operand, as the loop reads it, of the first `STORE_FAST` whose operand is greater
than `nlocals`. A last byte without a successor is followed by the terminating
NUL of the bytes object. -/
def scanStoreFast (rt : Runtime) (nlocals : Int) : List UInt8 → Option Int
  | [] => none
  | [op] =>
    if charVal rt op = (rt.STORE_FAST.toNat : Int) ∧ charVal rt 0 > nlocals then
      some (charVal rt 0)
    else none
  | op :: arg :: rest =>
    if charVal rt op = (rt.STORE_FAST.toNat : Int) ∧ charVal rt arg > nlocals then
      some (charVal rt arg)
    else scanStoreFast rt nlocals rest

/-- The five `i` units of the format `"OOOiiiii"`, converted in order. -/
def parseCounts (rt : Runtime) (a k n s f : PyObject) :
    Except PyErr (Int × Int × Int × Int × Int) := do
  let argcount ← convertInt rt a
  let kwonlyargcount ← convertInt rt k
  let nlocals ← convertInt rt n
  let stacksize ← convertInt rt s
  let flags ← convertInt rt f
  pure (argcount, kwonlyargcount, nlocals, stacksize, flags)

/-- The function `hook_code_new` (spython.c, lines 149-191). -/
def hook_code_new (rt : Runtime) (event : String) (args : List PyObject)
    (audit_log : FILE) (w : World) : Int × World :=
  match args with
  | [code, filename, _name, a, k, n, s, f] =>
    match parseCounts rt a k n s f with
    | .error e => (-1, w.setErr e)
    | .ok (_, _, nlocals, _, _) =>
      match fmtR rt (some filename) with
      | .error e => (-1, w.setErr e)
      | .ok r =>
        let w := fprintf w audit_log (logLine event ("compiling: " ++ r))
        match code with
        | .bytes wcode =>
          match scanStoreFast rt nlocals wcode with
          | some index =>
            let w := w.setErr ⟨"ValueError", "invalid code object"⟩
            let w := fprintf w audit_log (event ++ ": code stores to local " ++
              toString index ++ " but only allocates " ++ toString nlocals ++ "\n")
            (-1, w)
          | none => (0, w)
        | _ => (-1, w.setErr ⟨"TypeError", "Invalid bytecode object"⟩)
  | _ => (-1, w.setErr (countError 8 args.length))

/-- The function `hook_exec` (spython.c, lines 193-209). -/
def hook_exec (rt : Runtime) (event : String) (args : List PyObject)
    (audit_log : FILE) (w : World) : Int × World :=
  match args with
  | [codeObj] =>
    match fmtR rt (some codeObj) with
    | .error e => (-1, w.setErr e)
    | .ok msg => (0, fprintf w audit_log (logLine event msg))
  | _ => (-1, w.setErr (countError 1 args.length))

/-- The function `hook_id` (spython.c, lines 211-225). `_PyLong_Format` fails with
a bad internal call on NULL and on an object that is not an `int`. -/
def hook_id (rt : Runtime) (event : String) (args : List PyObject)
    (audit_log : FILE) (w : World) : Int × World :=
  let (id, w) := PyTuple_GetItem args 0 w
  let msg : Except PyErr String :=
    match id with
    | some (.long v) => .ok (formatHex v)
    | some (.bool b) => .ok (formatHex (if b then 1 else 0))
    | _ => .error ⟨"SystemError", rt.badInternalCall⟩
  match msg with
  | .error e => (-1, w.setErr e)
  | .ok msg => (0, fprintf w audit_log (logLine event msg))

/-- The function `hook_setattr` (spython.c, lines 227-248). -/
def hook_setattr (rt : Runtime) (event : String) (args : List PyObject)
    (audit_log : FILE) (w : World) : Int × World :=
  match args with
  | [obj, attr, value] =>
    if !w.pyReady then (0, w)
    else
      let msg : Except PyErr String := do
        let o ← fmtR rt (some obj)
        let a ← fmtS rt (some attr)
        let t ← fmtR rt (some (rt.typeOf value))
        pure ("setattr(" ++ o ++ ", \"" ++ a ++ "\", " ++ t ++ " instance at " ++
          rt.pointer value ++ ")")
      match msg with
      | .error e => (-1, w.setErr e)
      | .ok msg => (0, fprintf w audit_log (logLine event msg))
  | _ => (-1, w.setErr (countError 3 args.length))

/-- The function `hook_delattr` (spython.c, lines 250-270). -/
def hook_delattr (rt : Runtime) (event : String) (args : List PyObject)
    (audit_log : FILE) (w : World) : Int × World :=
  match args with
  | [obj, attr] =>
    if !w.pyReady then (0, w)
    else
      let msg : Except PyErr String := do
        let o ← fmtR rt (some obj)
        let a ← fmtS rt (some attr)
        pure ("delattr(" ++ o ++ ", \"" ++ a ++ "\")")
      match msg with
      | .error e => (-1, w.setErr e)
      | .ok msg => (0, fprintf w audit_log (logLine event msg))
  | _ => (-1, w.setErr (countError 2 args.length))

/-- The function `hook_pickle_find_class` (spython.c, lines 272-290). -/
def hook_pickle_find_class (rt : Runtime) (event : String) (args : List PyObject)
    (audit_log : FILE) (w : World) : Int × World :=
  let (mod, w) := PyTuple_GetItem args 0 w
  let (global, w) := PyTuple_GetItem args 1 w
  let msg : Except PyErr String := do
    let m ← fmtR rt mod
    let g ← fmtR rt global
    pure ("finding " ++ m ++ "." ++ g ++ " blocked")
  match msg with
  | .error e => (-1, w.setErr e)
  | .ok msg =>
    let w := fprintf w audit_log (logLine event msg)
    let w := w.setErr ⟨"RuntimeError", "unpickling arbitrary objects is disallowed"⟩
    (-1, w)

/-- The function `hook_system` (spython.c, lines 292-310). -/
def hook_system (rt : Runtime) (event : String) (args : List PyObject)
    (audit_log : FILE) (w : World) : Int × World :=
  let (cmd, w) := PyTuple_GetItem args 0 w
  match fmtS rt cmd with
  | .error e => (-1, w.setErr e)
  | .ok msg =>
    let w := fprintf w audit_log (logLine event msg)
    let w := w.setErr ⟨"RuntimeError", "os.system() is disallowed"⟩
    (-1, w)

/-- The function `default_spython_hook` (spython.c, lines 312-386): the chain of
`strcmp` tests, then the fallback that prints the representation of the arguments.
`userData` is the log stream. -/
def default_spython_hook (rt : Runtime) (event : String) (args : List PyObject)
    (userData : FILE) (w : World) : Int × World :=
  if event = "sys._clearaudithooks" then hook_clearaudithooks event args userData w
  else if event = "sys.addaudithook" then hook_addaudithook event args userData w
  else if event = "spython.open_for_import" then hook_open_for_import rt event args userData w
  else if event = "import" then hook_import rt event args userData w
  else if event = "compile" then hook_compile rt event args userData w
  else if event = "code.__new__" then hook_code_new rt event args userData w
  else if event = "exec" then hook_exec rt event args userData w
  else if event = "id" then hook_id rt event args userData w
  else if event = "object.__setattr__" then hook_setattr rt event args userData w
  else if event = "object.__delattr__" then hook_delattr rt event args userData w
  else if event = "pickle.find_class" then hook_pickle_find_class rt event args userData w
  else if event = "system" then hook_system rt event args userData w
  else
    match rt.reprTuple args with
    | .error e => (-1, w.setErr e)
    | .ok msg => (0, fprintf w userData (logLine event msg))

/-! ## The import gate and the launcher -/

/-- What `PyRun_SimpleFile(fp, "__main__")` does, taken as given: it returns, or
the script ends with an unhandled `SystemExit` and the runtime ends the process
inside the call. Either way the runtime may have written to standard error (a
traceback). -/
inductive ScriptRun where
  | returns (result : Int) (err : Option PyErr) (printed : List String)
  | exits (status : Int) (printed : List String)
deriving DecidableEq, Repr

/-- The outcomes of the calls that leave `spython.c`, taken as given. -/
structure Host where
  /-- Whether the build defines `MS_WINDOWS`. -/
  MS_WINDOWS : Bool
  /-- Whether the build defines `Py_DEBUG`. -/
  Py_DEBUG : Bool
  /-- The call `PySys_Audit`: `none` when no hook objects (result `0`), `some e` when a
  hook vetoes (result `-1`) and leaves the error `e`. -/
  audit : String → List PyObject → Option PyErr
  /-- The call `PyImport_ImportModule("_io")`. -/
  importIo : Except PyErr PyObject
  /-- The call `PyUnicode_AsWideCharString(path, NULL)`. -/
  asWideChar : String → Except PyErr Unit
  /-- The call `CreateFileW`: a handle, or the error `PyErr_SetExcFromWindowsErr` builds. -/
  createFile : String → Except PyErr Nat
  /-- The call `_open_osfhandle`: a descriptor, or the error `PyErr_SetFromErrno` builds. -/
  openOsfhandle : Nat → Except PyErr Int
  /-- The call `io.open(fd, "rb", -1, NULL, NULL, NULL, 1)`. -/
  ioOpenFd : Int → Except PyErr PyObject
  /-- The call `io.open(path, "rb", -1, NULL, NULL, NULL, 1)`. -/
  ioOpenPath : String → Except PyErr PyObject
  /-- Whether `_Py_wfopen(path, "r")` opens the file. -/
  wfopen : WideStr → Bool
  /-- The run of the script inside `PyRun_SimpleFile(fp, "__main__")`. -/
  script : ScriptRun
  /-- The conversion the directive `%ls` makes of a wide string in the locale in
  force: the text written, or `none` when a character has no multibyte form in
  that locale. The flag says whether the runtime is initialised: `main` has
  restored the locale the process started with before it calls `spython_main`,
  and initialising the runtime may set the locale of the environment. -/
  wideToMultibyte : Bool → WideStr → Option String

/-- The call `fprintf(f, "<before>%ls<after>", wide)`: when the wide string
cannot be converted the call fails at the directive, after it has written the text
in front of it. -/
def fprintfWide (h : Host) (w : World) (f : FILE) (before : String) (arg : WideStr)
    (after : String) : World :=
  match h.wideToMultibyte w.pyReady arg with
  | some text => fprintf w f (before ++ text ++ after)
  | none => fprintf w f before

/-- The end of `spython_open_for_import`, once `io` holds the module: open the
file, by handle where `MS_WINDOWS` is defined and by path elsewhere. -/
def openStream (h : Host) (path : String) (w : World) : Option PyObject × World :=
  if h.MS_WINDOWS then
    let w := w.call (.PyUnicode_AsWideCharString path)
    match h.asWideChar path with
    | .error e => (none, w.setErr e)
    | .ok _ =>
      let w := w.call (.CreateFileW path)
      match h.createFile path with
      | .error e => (none, w.setErr e)
      | .ok hFile =>
        let w := w.call (.open_osfhandle hFile)
        match h.openOsfhandle hFile with
        | .error e => (none, (w.setErr e).call (.CloseHandle hFile))
        | .ok fd =>
          let w := w.call (.io_open_fd fd)
          match h.ioOpenFd fd with
          | .error e => (none, w.setErr e)
          | .ok stream => (some stream, w)
  else
    let w := w.call (.io_open_path path)
    match h.ioOpenPath path with
    | .error e => (none, w.setErr e)
    | .ok stream => (some stream, w)

/-- How a call of `spython_open_for_import` ends: it returns the stream (`none`
for NULL) and the new state, or the process dies inside it; `calls` are the calls
the gate had made by then. -/
inductive GateResult where
  | crashed (calls : List Call)
  | returned (stream : Option PyObject) (w : World)
deriving DecidableEq, Repr

/-- The function `spython_open_for_import` (spython.c, lines 388-447) on a path
that is a `str`. Line 394 hands the result of `PyUnicode_AsUTF8(path)` to
`strrchr` without a check: when it is NULL the read through it ends the process.
Otherwise `text` is the text of the path and `utf8` its buffer. -/
def spython_open_for_import (h : Host) (path : PyStr) (w : World) : GateResult :=
  match path.text, PyUnicode_AsUTF8 path with
  | some text, some utf8 =>
    let disallow := disallow utf8
    let b := PyObject.bool (!disallow)
    let w := w.call (.PySys_Audit "spython.open_for_import" [.unicode text, b])
    match h.audit "spython.open_for_import" [.unicode text, b] with
    | some e => .returned none (w.setErr e)
    | none =>
      if disallow then .returned none (w.setErr ⟨"OSError", "invalid format"⟩)
      else
        match w.io with
        | some _ =>
          let (stream, w) := openStream h text w
          .returned stream w
        | none =>
          let w := w.call (.PyImport_ImportModule "_io")
          match h.importIo with
          | .error e => .returned none (w.setErr e)
          | .ok io =>
            let (stream, w) := openStream h text { w with io := some io }
            .returned stream w
  | _, _ => .crashed w.calls

/-- How a call of `PyRun_SimpleFile` ends: it returns its result, or the process
exits inside it with a status. -/
inductive RunResult where
  | returned (result : Int) (w : World)
  | exited (status : Int) (w : World)
deriving DecidableEq, Repr

/-- Write texts to a stream, one `fprintf` each. -/
def fprintfAll (w : World) (f : FILE) (texts : List String) : World :=
  texts.foldl (fun w t => fprintf w f t) w

/-- The call `PyRun_SimpleFile(fp, "__main__")`: what the runtime printed goes to
standard error; the call returns with the error indicator as the run left it, or
the runtime handles the `SystemExit` with `Py_Exit`, which finalises the runtime
and ends the process with the status. -/
def PyRun_SimpleFile (h : Host) (w : World) : RunResult :=
  let w := w.call .PyRun_SimpleFile
  match h.script with
  | .returns result err printed =>
    .returned result { fprintfAll w FILE.stderr printed with pyErr := err }
  | .exits status printed =>
    .exited status { fprintfAll w FILE.stderr printed with pyReady := false }

/-- The function `spython_usage` (spython.c, lines 449-457). -/
def spython_usage (h : Host) (exitcode : Int) (program : WideStr) (w : World) :
    Int × World :=
  let f := if exitcode ≠ 0 then FILE.stderr else FILE.stdout
  (exitcode, fprintfWide h w f "usage: " program " file [arg] ...\n")

/-- How `spython_main` ends: it returns an exit code, the process is aborted by
`Py_FatalError`, or the process exits with a status inside a call into the
runtime, before `spython_main` returns. -/
inductive Outcome where
  | exit (code : Int)
  | abort
  | exitedInside (status : Int)
deriving DecidableEq, Repr

/-- The function `spython_main(argc, argv, audit_log)` (spython.c, lines 459-510)
with `argv = program :: rest`, so that `argc = 1 + rest.length`; `audit_log = none`
is the NULL stream. -/
def spython_main (h : Host) (program : WideStr) (rest : List WideStr)
    (audit_log : Option FILE) (w : World) : Outcome × World :=
  match rest with
  | [] =>
    let (code, w) := spython_usage h 1 program w
    (.exit code, w)
  | script :: _ =>
    match audit_log with
    | none => (.abort, w.call (.Py_FatalError "failed to open log file"))
    | some audit_log =>
      let interactive := h.Py_DEBUG && script == wide "-i"
      let (audit_log, w) :=
        if interactive then (FILE.stderr, fclose w audit_log) else (audit_log, w)
      let w := w.call (.PySys_AddAuditHook audit_log)
      let w := w.call .PyImport_SetOpenForImportHook
      let w := { w with Py_IgnoreEnvironmentFlag := 1, Py_NoSiteFlag := 1,
                        Py_NoUserSiteDirectory := 1, Py_DontWriteBytecodeFlag := 1 }
      let w := w.call (.Py_SetProgramName program)
      let w := { w.call .Py_Initialize with pyReady := true }
      let w := w.call (.PySys_SetArgv rest)
      if interactive then
        let w := w.call .PyRun_InteractiveLoop
        let w := { w.call .Py_Finalize with pyReady := false }
        (.exit 0, w)
      else
        let w := w.call (.Py_wfopen script)
        if h.wfopen script then
          match PyRun_SimpleFile h w with
          | .exited status w => (.exitedInside status, w)
          | .returned _ w =>
            let w := { w.call .PyErr_Clear with pyErr := none }
            let w := w.call .fclose_fp
            let w := { w.call .Py_Finalize with pyReady := false }
            (.exit 0, w)
        else
          let w := fprintfWide h w FILE.stderr "failed to open source file " script "\n"
          let w := { w.call .Py_Finalize with pyReady := false }
          (.exit 0, w)

/-! ## Reference definitions, written from the specification -/

/-- The extension of a path as the specification describes it: the suffix that
starts at the last `'.'`, or `none` when the path has no `'.'`. -/
def lastDotSuffix : List Char → Option (List Char)
  | [] => none
  | c :: rest =>
    match lastDotSuffix rest with
    | some r => some r
    | none => if c = '.' then some (c :: rest) else none

/-- The decision of the specification: the extension equals `.py` when letter
case is ignored. -/
def specAllowed (path : String) : Bool :=
  match lastDotSuffix path.data with
  | none => false
  | some ext => ext.map Char.toLower == ['.', 'p', 'y']

/-- The instructions of a bytecode string: opcode and operand byte at every even
offset. A last opcode without an operand byte is paired with the NUL byte that
ends the buffer of a bytes object. -/
def instructions : List UInt8 → List (UInt8 × UInt8)
  | [] => []
  | [op] => [(op, 0)]
  | op :: arg :: rest => (op, arg) :: instructions rest

/-- Whether a call raises an audit event. -/
def Call.isAudit : Call → Bool
  | .PySys_Audit _ _ => true
  | _ => false

/-- Whether a call imports a module. -/
def Call.isImport : Call → Bool
  | .PyImport_ImportModule _ => true
  | _ => false

/-- Whether a call is an attempt to open a file. -/
def Call.opensFile : Call → Bool
  | .CreateFileW _ => true
  | .io_open_fd _ => true
  | .io_open_path _ => true
  | _ => false

/-- An instruction the bound check of `hook_code_new` objects to: its opcode is
`STORE_FAST` and its operand, read through `char *`, is greater than `nlocals`. -/
def offending (rt : Runtime) (nlocals : Int) (ins : UInt8 × UInt8) : Prop :=
  charVal rt ins.1 = (rt.STORE_FAST.toNat : Int) ∧ charVal rt ins.2 > nlocals

/-- An instruction that stores beyond the limit in the words of the specification:
its opcode is `STORE_FAST` and its operand byte is greater than `nlocals`. -/
def exceeds (rt : Runtime) (nlocals : Int) (ins : UInt8 × UInt8) : Prop :=
  ins.1 = rt.STORE_FAST ∧ (ins.2.toNat : Int) > nlocals

/-- A value that fits the C type `int`. -/
abbrev fitsInt (v : Int) : Prop := INT_MIN ≤ v ∧ v ≤ INT_MAX

/-- The argument tuple of a `code.__new__` event: bytecode, file name, name and
the five counts. -/
def codeNewArgs (code : List UInt8) (filename name : PyObject)
    (argcount kwonlyargcount nlocals stacksize flags : Int) : List PyObject :=
  [.bytes code, filename, name, .long argcount, .long kwonlyargcount, .long nlocals,
    .long stacksize, .long flags]

/-- A log entry in the format of the specification: `<event-name>: <message>` and
the newline that ends it. -/
def isLogEntry (event text : String) : Prop :=
  ∃ msg : String, text = event ++ ": " ++ msg ++ "\n"

/-- The number of lines in a text written to the log: its newline characters. -/
def lineCount (text : String) : Nat :=
  text.data.count '\n'

/-- The entries a call appended to a stream: the stream holds in `w'` what it held
in `w`, followed by them. -/
def appended (f : FILE) (w w' : World) (entries : List String) : Prop :=
  (w'.stream f).written = (w.stream f).written ++ entries

/-- Whether a step that can fail has given its result. -/
def rendered {α : Type} : Except PyErr α → Bool
  | .ok _ => true
  | .error _ => false

/-- The number of log entries of a decision that allows: one, and none for an
attribute assignment or deletion made before the runtime is initialised. -/
def allowedEntries (event : String) (pyReady : Bool) : Nat :=
  if pyReady = false ∧ (event = "object.__setattr__" ∨ event = "object.__delattr__") then 0
  else 1

/-- The number of log entries of a decision that denies. The registration of a
hook is denied with one entry. `system` and `pickle.find_class` are denied with
one entry when their message can be rendered. A `code.__new__` event whose eight
arguments can be parsed and whose file name can be rendered is denied with two
entries when its bytecode is a bytes object (the file name entry and the entry of
the bound check) and with one entry when it is not. Every other denial comes from
arguments that cannot be parsed or a message that cannot be rendered, and has no
entry. -/
def deniedEntries (rt : Runtime) (event : String) (args : List PyObject) : Nat :=
  if event = "sys.addaudithook" then 1
  else if event = "system" then
    if rendered (fmtS rt (args.get? 0)) then 1 else 0
  else if event = "pickle.find_class" then
    if rendered (fmtR rt (args.get? 0)) && rendered (fmtR rt (args.get? 1)) then 1 else 0
  else if event = "code.__new__" then
    match args with
    | [code, filename, _, a, k, n, s, f] =>
      if rendered (parseCounts rt a k n s f) && rendered (fmtR rt (some filename)) then
        match code with
        | .bytes _ => 2
        | _ => 1
      else 0
    | _ => 0
  else 0

/-- The log entries of one decision, as the code writes them: the result is `0`
or `-1`, the entries appended are all in the log format, and there are `allow` of
them when the decision allows and `deny` when it denies. -/
def logsDecision (event : String) (f : FILE) (w : World) (r : Int × World)
    (allow deny : Nat) : Prop :=
  (r.1 = 0 ∨ r.1 = -1) ∧
  ∃ entries, appended f w r.2 entries ∧ (∀ e ∈ entries, isLogEntry event e) ∧
    (r.1 = 0 → entries.length = allow) ∧ (r.1 = -1 → entries.length = deny)

/-! ## Concrete runtimes and hosts for the examples -/

/-- A runtime for the examples: `STORE_FAST` is 125, `char` is signed, `long` has
64 bits, a `str` is shown between quotes and every other object as `<object>`. -/
def demoRuntime : Runtime where
  repr := fun o =>
    match o with
    | .unicode s => .ok ("'" ++ s ++ "'")
    | _ => .ok "<object>"
  str := fun _ => .ok "<object>"
  reprTuple := fun items => .ok ("(" ++ toString items.length ++ " items)")
  isTrue := fun _ => .ok true
  asLong := fun _ => .error ⟨"TypeError", "an integer is required"⟩
  typeOf := fun _ => .object 0
  pointer := fun _ => "0x0"
  STORE_FAST := 125
  long64 := true
  badInternalCall := "../Objects/longobject.c:1: bad argument to internal function"
  charSigned := true

/-- The conversion of `%ls` in the C locale: only ASCII characters have a
multibyte form. -/
def cLocale (s : WideStr) : Option String :=
  match scalars s with
  | some cs => if cs.all (fun c => c.val < 128) then some ⟨cs⟩ else none
  | none => none

/-- A host for the examples: a build without `MS_WINDOWS` and `Py_DEBUG`, in the
C locale before and after the runtime is initialised, on which no hook objects,
every external call succeeds and the script runs to its end without printing. -/
def demoHost : Host where
  MS_WINDOWS := false
  Py_DEBUG := false
  audit := fun _ _ => none
  importIo := .ok (.object 1)
  asWideChar := fun _ => .ok ()
  createFile := fun _ => .ok 3
  openOsfhandle := fun _ => .ok 4
  ioOpenFd := fun _ => .ok (.object 2)
  ioOpenPath := fun _ => .ok (.object 2)
  wfopen := fun _ => true
  script := .returns 0 none []
  wideToMultibyte := fun _ => cLocale

/-- The host of the examples, except that a hook vetoes every audit event with a
`RuntimeError`. -/
def vetoHost : Host :=
  { demoHost with audit := fun _ _ => some ⟨"RuntimeError", "vetoed"⟩ }

/-- The host of the examples, except that the script file cannot be opened. -/
def noFileHost : Host :=
  { demoHost with wfopen := fun _ => false }

/-- The host of the examples, except that the script raises: the runtime prints
a traceback and `PyRun_SimpleFile` returns `-1`. -/
def raisingHost : Host :=
  { demoHost with
    script := .returns (-1) none ["Traceback (most recent call last):\n"] }

/-- The host of the examples, except that the script calls `sys.exit(7)`. -/
def exitingHost : Host :=
  { demoHost with script := .exits 7 [] }

/-- The path `mod\udc80.py`: a lone surrogate, as `surrogateescape` leaves for an
undecodable byte, in front of the extension. -/
def surrogatePyPath : PyStr :=
  ⟨wide "mod" ++ [.surrogate 1152] ++ wide ".py"⟩

/-- The path `mod\udc80`: a lone surrogate and no extension. -/
def surrogatePath : PyStr :=
  ⟨wide "mod" ++ [.surrogate 1152]⟩

/-- The script path `caf\udce9.py`: the byte `0xE9` of the command line, which
`Py_DecodeLocale` could not decode and left as a lone surrogate. -/
def surrogateScript : WideStr :=
  wide "caf" ++ [.surrogate 1257] ++ wide ".py"

/-! ## The extension check of the import gate -/

set_option maxRecDepth 100000 in
theorem or_high_bit (y : UInt8) :
    128 ≤ (y ||| 0x80).toNat ∧ 128 ≤ (y ||| 0xc0).toNat ∧
    128 ≤ (y ||| 0xe0).toNat ∧ 128 ≤ (y ||| 0xf0).toNat := by
  rcases y with ⟨⟨f⟩⟩
  revert f
  decide

theorem utf8_ascii (c : Char) (h : c.val ≤ 0x7f) :
    String.utf8EncodeChar c = [c.val.toUInt8] := by
  simp [String.utf8EncodeChar, h]

theorem utf8_high (c : Char) (h : ¬ c.val ≤ 0x7f) :
    ∀ b ∈ String.utf8EncodeChar c, 128 ≤ b.toNat := by
  intro b hb
  simp only [String.utf8EncodeChar, h, if_false] at hb
  split at hb
  · simp at hb
    rcases hb with rfl | rfl
    · exact (or_high_bit _).2.1
    · exact (or_high_bit _).1
  · split at hb
    · simp at hb
      rcases hb with rfl | rfl | rfl
      · exact (or_high_bit _).2.2.1
      · exact (or_high_bit _).1
      · exact (or_high_bit _).1
    · simp at hb
      rcases hb with rfl | rfl | rfl | rfl
      · exact (or_high_bit _).2.2.2
      · exact (or_high_bit _).1
      · exact (or_high_bit _).1
      · exact (or_high_bit _).1

theorem asciiByte_toNat (c : Char) (h : c.val ≤ 0x7f) :
    c.val.toUInt8.toNat = c.val.toNat := by
  have h1 : c.val.toNat ≤ 127 := h
  simp [UInt32.toUInt8, UInt8.toNat, UInt8.ofNat]
  omega

theorem utf8_low_byte (c : Char) (b : UInt8) (hb : b ∈ String.utf8EncodeChar c)
    (hlt : b.toNat < 128) :
    c.val ≤ 0x7f ∧ String.utf8EncodeChar c = [b] ∧ c.val.toNat = b.toNat := by
  by_cases h : c.val ≤ 0x7f
  · rw [utf8_ascii c h] at hb ⊢
    simp at hb
    subst hb
    exact ⟨h, rfl, (asciiByte_toNat c h).symm⟩
  · have := utf8_high c h b hb
    omega

theorem char_eq_of_toNat (c d : Char) (h : c.val.toNat = d.val.toNat) : c = d :=
  Char.ext (UInt32.ext h)

theorem utf8_dot : String.utf8EncodeChar '.' = [dotByte] := by decide

theorem dot_mem_utf8 (c : Char) (h : dotByte ∈ String.utf8EncodeChar c) : c = '.' := by
  have := utf8_low_byte c dotByte h (by decide)
  exact char_eq_of_toNat c '.' this.2.2

theorem nul_mem_utf8 (c : Char) (h : (0 : UInt8) ∈ String.utf8EncodeChar c) : c = '\x00' := by
  have := utf8_low_byte c 0 h (by decide)
  exact char_eq_of_toNat c '\x00' this.2.2

theorem strrchr_not_mem (c : UInt8) (hc : c ≠ 0) :
    ∀ xs : List UInt8, c ∉ xs → strrchr xs c = none
  | [], _ => by simp [strrchr, hc]
  | b :: rest, h => by
    have h1 : c ∉ rest := fun hm => h (List.mem_cons_of_mem _ hm)
    have h2 : b ≠ c := fun e => h (by simp [e])
    simp [strrchr, strrchr_not_mem c hc rest h1, h2]

theorem strrchr_append (c : UInt8) (hc : c ≠ 0) (xs : List UInt8) :
    ∀ pre : List UInt8, strrchr (pre ++ xs) c =
      match strrchr xs c with
      | some r => some r
      | none => (strrchr pre c).map (fun s => s ++ xs)
  | [] => by
    have e : strrchr [] c = none := by simp [strrchr, hc]
    rw [List.nil_append, e]
    cases strrchr xs c <;> rfl
  | b :: p => by
    have ih := strrchr_append c hc xs p
    have step : ∀ ys : List UInt8, strrchr (b :: ys) c =
        match strrchr ys c with
        | some r => some r
        | none => if b = c then some (b :: ys) else none := fun _ => rfl
    rw [List.cons_append, step, step, ih]
    cases strrchr xs c with
    | some r => rfl
    | none =>
      cases strrchr p c with
      | some r => rfl
      | none => by_cases e : b = c <;> simp [e]

theorem strrchr_utf8 : ∀ cs : List Char,
    strrchr (cs.flatMap String.utf8EncodeChar) dotByte =
      (lastDotSuffix cs).map (fun s => s.flatMap String.utf8EncodeChar)
  | [] => by simp [strrchr, lastDotSuffix, dotByte]
  | c :: rest => by
    have ih := strrchr_utf8 rest
    rw [List.flatMap_cons, strrchr_append dotByte (by decide), ih]
    simp only [lastDotSuffix]
    cases h : lastDotSuffix rest with
    | some r => simp
    | none =>
      simp only [Option.map_none']
      by_cases e : c = '.'
      · subst e
        rw [utf8_dot]
        simp [strrchr, dotByte, utf8_dot]
      · have : dotByte ∉ String.utf8EncodeChar c := fun hm => e (dot_mem_utf8 c hm)
        simp [strrchr_not_mem dotByte (by decide) _ this, e]


theorem utf8_ne_nil (c : Char) : String.utf8EncodeChar c ≠ [] := by
  intro h
  have h1 := String.length_utf8EncodeChar c
  rw [h] at h1
  have := Char.utf8Size_pos c
  simp at h1
  omega

theorem utf8_all_ascii : ∀ cs : List Char, (∀ c ∈ cs, c.val ≤ 0x7f) →
    cs.flatMap String.utf8EncodeChar = cs.map (fun c => c.val.toUInt8)
  | [], _ => rfl
  | c :: rest, h => by
    rw [List.flatMap_cons, utf8_ascii c (h c (by simp)),
      utf8_all_ascii rest (fun d hd => h d (List.mem_cons_of_mem _ hd))]
    rfl

theorem ascii_of_low_bytes : ∀ cs : List Char,
    (∀ b ∈ cs.flatMap String.utf8EncodeChar, b.toNat < 128) → ∀ c ∈ cs, c.val ≤ 0x7f := by
  intro cs h c hc
  by_contra hn
  obtain ⟨b, rest, hb⟩ := List.exists_cons_of_ne_nil (utf8_ne_nil c)
  have hmem : b ∈ String.utf8EncodeChar c := by rw [hb]; simp
  have h1 := utf8_high c hn b hmem
  have h2 := h b (List.mem_flatMap.mpr ⟨c, hc, hmem⟩)
  omega

set_option maxRecDepth 100000 in
theorem tolower_facts (b : UInt8) :
    ((tolower b).toNat < 128 ↔ b.toNat < 128) ∧ (b ≠ 0 → tolower b ≠ 0) := by
  rcases b with ⟨⟨f⟩⟩
  revert f
  decide

set_option maxRecDepth 100000 in
theorem tolower_ascii_nat : ∀ n : Fin 128,
    tolower (Char.ofNat n.val).val.toUInt8 = (Char.ofNat n.val).toLower.val.toUInt8 ∧
    (Char.ofNat n.val).toLower.val ≤ 0x7f := by
  decide


theorem tolower_ascii (c : Char) (h : c.val ≤ 0x7f) :
    tolower c.val.toUInt8 = c.toLower.val.toUInt8 ∧ c.toLower.val ≤ 0x7f := by
  have h1 : c.val.toNat ≤ 127 := h
  have h2 := tolower_ascii_nat ⟨c.val.toNat, by omega⟩
  have h3 : Char.ofNat c.val.toNat = c := char_eq_of_toNat _ _ (by
    show (Char.ofNat c.toNat).toNat = c.toNat
    rw [Char.ofNat_toNat])
  simp only [h3] at h2
  exact h2

theorem ascii_of_toLower (c : Char) (h : c.toLower.val ≤ 0x7f) : c.val ≤ 0x7f := by
  unfold Char.toLower at h
  by_cases hr : c.toNat ≥ 65 ∧ c.toNat ≤ 90
  · have : c.val.toNat ≤ 90 := hr.2
    show c.val.toNat ≤ 127
    omega
  · simpa [hr] using h

theorem asciiByte_inj (c d : Char) (hc : c.val ≤ 0x7f) (hd : d.val ≤ 0x7f)
    (h : c.val.toUInt8 = d.val.toUInt8) : c = d := by
  apply char_eq_of_toNat
  rw [← asciiByte_toNat c hc, ← asciiByte_toNat d hd, h]

theorem map_asciiByte_inj : ∀ l1 l2 : List Char,
    (∀ c ∈ l1, c.val ≤ 0x7f) → (∀ c ∈ l2, c.val ≤ 0x7f) →
    l1.map (fun c => c.val.toUInt8) = l2.map (fun c => c.val.toUInt8) → l1 = l2
  | [], [], _, _, _ => rfl
  | [], _ :: _, _, _, h => by simp at h
  | _ :: _, [], _, _, h => by simp at h
  | a :: l1, b :: l2, h1, h2, h => by
    simp only [List.map_cons, List.cons.injEq] at h
    rw [asciiByte_inj a b (h1 a (by simp)) (h2 b (by simp)) h.1,
      map_asciiByte_inj l1 l2 (fun c hc => h1 c (List.mem_cons_of_mem _ hc))
        (fun c hc => h2 c (List.mem_cons_of_mem _ hc)) h.2]

theorem map_tolower_ascii : ∀ cs : List Char, (∀ c ∈ cs, c.val ≤ 0x7f) →
    (cs.map (fun c => c.val.toUInt8)).map tolower =
      (cs.map Char.toLower).map (fun c => c.val.toUInt8)
  | [], _ => rfl
  | c :: rest, h => by
    simp only [List.map_cons]
    rw [(tolower_ascii c (h c (by simp))).1,
      map_tolower_ascii rest (fun d hd => h d (List.mem_cons_of_mem _ hd))]

/-- Lower-casing the UTF-8 bytes gives `".py"` exactly when lower-casing the
characters gives `".py"`. -/
theorem lower_bytes_iff (cs : List Char) :
    (cs.flatMap String.utf8EncodeChar).map tolower = dotPy ↔
      cs.map Char.toLower = ['.', 'p', 'y'] := by
  constructor
  · intro h
    have hlow : ∀ b ∈ cs.flatMap String.utf8EncodeChar, b.toNat < 128 := by
      intro b hb
      have hm : tolower b ∈ dotPy := by
        rw [← h]; exact List.mem_map_of_mem _ hb
      have : (tolower b).toNat < 128 := by
        simp only [dotPy, List.mem_cons, List.mem_singleton, List.not_mem_nil, or_false] at hm
        rcases hm with e | e | e <;> rw [e] <;> decide
      exact (tolower_facts b).1.mp this
    have hasc := ascii_of_low_bytes cs hlow
    rw [utf8_all_ascii cs hasc, map_tolower_ascii cs hasc] at h
    have hpy : dotPy = ['.', 'p', 'y'].map (fun c => c.val.toUInt8) := by decide
    rw [hpy] at h
    apply map_asciiByte_inj _ _ _ _ h
    · intro c hc
      obtain ⟨d, hd, rfl⟩ := List.mem_map.mp hc
      exact (tolower_ascii d (hasc d hd)).2
    · decide
  · intro h
    have hasc : ∀ c ∈ cs, c.val ≤ 0x7f := by
      intro c hc
      apply ascii_of_toLower
      have hm : c.toLower ∈ ['.', 'p', 'y'] := by
        rw [← h]; exact List.mem_map_of_mem _ hc
      simp only [List.mem_cons, List.mem_singleton, List.not_mem_nil, or_false] at hm
      rcases hm with e | e | e <;> rw [e] <;> decide
    rw [utf8_all_ascii cs hasc, map_tolower_ascii cs hasc, h]
    decide

theorem strcmpi_eq_zero_iff : ∀ (bs t : List UInt8), (∀ b ∈ bs, b ≠ 0) →
    (∀ b ∈ t, b ≠ 0 ∧ tolower b = b) → (strcmpi bs t = 0 ↔ bs.map tolower = t)
  | [], [], _, _ => by simp [strcmpi]
  | [], b :: t, _, ht => by
    have hb := ht b (by simp)
    have : (tolower b).toNat ≠ 0 := by
      rw [hb.2]; intro e; exact hb.1 (UInt8.ext e)
    simp only [strcmpi, List.map_nil]
    constructor
    · intro e; omega
    · intro e; simp at e
  | a :: bs, [], hbs, _ => by
    have ha := (tolower_facts a).2 (hbs a (by simp))
    have : (tolower a).toNat ≠ 0 := fun e => ha (UInt8.ext e)
    simp only [strcmpi, List.map_cons]
    constructor
    · intro e; omega
    · intro e; simp at e
  | a :: bs, b :: t, hbs, ht => by
    have ih := strcmpi_eq_zero_iff bs t (fun x hx => hbs x (List.mem_cons_of_mem _ hx))
      (fun x hx => ht x (List.mem_cons_of_mem _ hx))
    have hb := (ht b (by simp)).2
    simp only [strcmpi, List.map_cons, List.cons.injEq]
    by_cases e : tolower a = tolower b
    · simp only [e, if_true, ih, hb, true_and]
    · simp only [e, if_false]
      constructor
      · intro h
        exact absurd (UInt8.ext (by omega)) e
      · intro h
        exact absurd (by rw [hb]; exact h.1) e


theorem lastDotSuffix_none_of_not_mem : ∀ cs : List Char, '.' ∉ cs → lastDotSuffix cs = none
  | [], _ => rfl
  | c :: rest, h => by
    have h1 : '.' ∉ rest := fun hm => h (List.mem_cons_of_mem _ hm)
    have h2 : c ≠ '.' := fun e => h (by simp [e])
    simp [lastDotSuffix, lastDotSuffix_none_of_not_mem rest h1, h2]

theorem not_mem_of_lastDotSuffix_none : ∀ cs : List Char, lastDotSuffix cs = none → '.' ∉ cs
  | [], _ => by simp
  | c :: rest, h => by
    simp only [lastDotSuffix] at h
    cases h1 : lastDotSuffix rest with
    | some r => rw [h1] at h; simp at h
    | none =>
      rw [h1] at h
      have hc : c ≠ '.' := by
        intro e; simp [e] at h
      have := not_mem_of_lastDotSuffix_none rest h1
      simp only [List.mem_cons, not_or]
      exact ⟨fun e => hc e.symm, this⟩

theorem lastDotSuffix_append (rest : List Char) (h : '.' ∉ rest) :
    ∀ pre : List Char, lastDotSuffix (pre ++ '.' :: rest) = some ('.' :: rest)
  | [] => by
    simp [lastDotSuffix, lastDotSuffix_none_of_not_mem rest h]
  | c :: pre => by
    simp [lastDotSuffix, lastDotSuffix_append rest h pre]

theorem lastDotSuffix_some : ∀ (cs ext : List Char), lastDotSuffix cs = some ext →
    ∃ pre rest, cs = pre ++ '.' :: rest ∧ '.' ∉ rest ∧ ext = '.' :: rest
  | [], _, h => by simp [lastDotSuffix] at h
  | c :: tl, ext, h => by
    simp only [lastDotSuffix] at h
    cases h1 : lastDotSuffix tl with
    | some r =>
      rw [h1] at h
      obtain ⟨pre, rest, e1, e2, e3⟩ := lastDotSuffix_some tl r h1
      simp only [Option.some.injEq] at h
      exact ⟨c :: pre, rest, by rw [e1]; rfl, e2, by rw [← h, e3]⟩
    | none =>
      rw [h1] at h
      by_cases e : c = '.'
      · simp only [e, if_true, Option.some.injEq] at h
        exact ⟨[], tl, by rw [e]; rfl, not_mem_of_lastDotSuffix_none tl h1, h.symm⟩
      · simp [e] at h

/-- The reference decision holds exactly when the path has a last `'.'` and the
suffix from there is `".py"` up to letter case. -/
theorem specAllowed_iff (path : String) :
    specAllowed path = true ↔
      ∃ pre rest, path.data = pre ++ '.' :: rest ∧ '.' ∉ rest ∧
        ('.' :: rest).map Char.toLower = ['.', 'p', 'y'] := by
  unfold specAllowed
  constructor
  · intro h
    cases h1 : lastDotSuffix path.data with
    | none => rw [h1] at h; simp at h
    | some ext =>
      rw [h1] at h
      obtain ⟨pre, rest, e1, e2, e3⟩ := lastDotSuffix_some _ _ h1
      refine ⟨pre, rest, e1, e2, ?_⟩
      rw [← e3]
      simpa using h
  · rintro ⟨pre, rest, e1, e2, e3⟩
    rw [e1, lastDotSuffix_append rest e2 pre]
    simpa using e3

theorem cstr_eq_self (buf : List UInt8) (h : ∀ b ∈ buf, b ≠ 0) : cstr buf = buf := by
  unfold cstr
  rw [List.takeWhile_eq_self_iff]
  intro b hb
  simpa using h b hb

theorem utf8_no_nul (cs : List Char) (h : '\x00' ∉ cs) :
    ∀ b ∈ cs.flatMap String.utf8EncodeChar, b ≠ 0 := by
  intro b hb e
  obtain ⟨c, hc, hm⟩ := List.mem_flatMap.mp hb
  rw [e] at hm
  rw [nul_mem_utf8 c hm] at hc
  exact h hc

/-- On a path without NUL characters the gate's decision is the reference one. -/
theorem allowed_eq_specAllowed (path : String) (h : '\x00' ∉ path.data) :
    (!disallow (utf8Bytes path)) = specAllowed path := by
  unfold disallow specAllowed utf8Bytes
  rw [cstr_eq_self _ (utf8_no_nul _ h), strrchr_utf8]
  cases h1 : lastDotSuffix path.data with
  | none => rfl
  | some ext =>
    obtain ⟨pre, rest, e1, _, e3⟩ := lastDotSuffix_some _ _ h1
    have hext : '\x00' ∉ ext := by
      intro hm
      apply h
      rw [e1, ← e3]
      exact List.mem_append_right _ hm
    have key := (strcmpi_eq_zero_iff (ext.flatMap String.utf8EncodeChar) dotPy
      (utf8_no_nul _ hext) (by decide)).trans (lower_bytes_iff ext)
    show (!(strcmpi (ext.flatMap String.utf8EncodeChar) dotPy != 0)) =
      (ext.map Char.toLower == ['.', 'p', 'y'])
    by_cases hz : strcmpi (ext.flatMap String.utf8EncodeChar) dotPy = 0
    · have h2 : (ext.map Char.toLower == ['.', 'p', 'y']) = true := beq_iff_eq.mpr (key.mp hz)
      rw [h2, hz]
      rfl
    · have h2 : (ext.map Char.toLower == ['.', 'p', 'y']) = false :=
        beq_eq_false_iff_ne.mpr (fun e => hz (key.mpr e))
      have h3 : (strcmpi (ext.flatMap String.utf8EncodeChar) dotPy != 0) = true :=
        bne_iff_ne.mpr hz
      rw [h2, h3]
      rfl

theorem scalars_wide : ∀ cs : List Char, scalars (cs.map CodePoint.scalar) = some cs
  | [] => rfl
  | c :: cs => by simp [scalars, scalars_wide cs]

theorem text_ofString (s : String) : (PyStr.ofString s).text = some s := by
  simp [PyStr.ofString, PyStr.text, wide, scalars_wide]

theorem allowed_of_text (path : PyStr) (text : String) (h : path.text = some text) :
    allowed path = some (!disallow (utf8Bytes text)) := by
  simp [allowed, PyUnicode_AsUTF8, h]

/-- C1 (amended): for every path string that UTF-8 can encode (`text` is its
text: it holds no lone surrogate) and that has no NUL character, the import gate
computes a decision, and it is `allowed = true` exactly when the path contains a
`'.'` and the suffix starting at its last `'.'` equals `".py"` ignoring letter
case; `"mod.py"` is allowed and `"mod.txt"`, `"mod"` and `"mod.PY.bak"` are not. -/
theorem C1_allowed_iff_py_extension (path : PyStr) (text : String)
    (henc : path.text = some text) (hnul : '\x00' ∉ text.data) :
    (∃ b, allowed path = some b ∧
      (b = true ↔
        ∃ pre rest, text.data = pre ++ '.' :: rest ∧ '.' ∉ rest ∧
          ('.' :: rest).map Char.toLower = ['.', 'p', 'y'])) ∧
    allowed (PyStr.ofString "mod.py") = some true ∧
    allowed (PyStr.ofString "mod.txt") = some false ∧
    allowed (PyStr.ofString "mod") = some false ∧
    allowed (PyStr.ofString "mod.PY.bak") = some false := by
  refine ⟨⟨_, allowed_of_text path text henc, ?_⟩, by decide, by decide, by decide,
    by decide⟩
  rw [allowed_eq_specAllowed text hnul]
  exact specAllowed_iff text

/-- C1 at the path `"pkg/Mod.Py"`, which has no lone surrogate and no NUL
character. -/
theorem C1_allowed_iff_py_extension_witness :
    (PyStr.ofString "pkg/Mod.Py").text = some "pkg/Mod.Py" ∧
    '\x00' ∉ "pkg/Mod.Py".data ∧
    ((∃ b, allowed (PyStr.ofString "pkg/Mod.Py") = some b ∧
      (b = true ↔
        ∃ pre rest, "pkg/Mod.Py".data = pre ++ '.' :: rest ∧ '.' ∉ rest ∧
          ('.' :: rest).map Char.toLower = ['.', 'p', 'y'])) ∧
    allowed (PyStr.ofString "mod.py") = some true ∧
    allowed (PyStr.ofString "mod.txt") = some false ∧
    allowed (PyStr.ofString "mod") = some false ∧
    allowed (PyStr.ofString "mod.PY.bak") = some false) :=
  ⟨by decide, by decide,
    C1_allowed_iff_py_extension (PyStr.ofString "pkg/Mod.Py") "pkg/Mod.Py" (by decide)
      (by decide)⟩

/-- C1 as stated fails on two kinds of path. With a NUL character: `strrchr` and
`strcmpi` stop at the NUL, so `"mod.py\0.txt"` is allowed although the suffix at
its last `'.'` is `".txt"`. With a lone surrogate: the path `mod\udc80.py` ends
in `.py`, yet `PyUnicode_AsUTF8` returns NULL for it, no decision is computed and
the gate dies in `strrchr` without having made a call. -/
theorem C1_counterexample_nul_or_surrogate_in_path :
    (allowed (PyStr.ofString "mod.py\x00.txt") = some true ∧
      ¬ ∃ pre rest, "mod.py\x00.txt".data = pre ++ '.' :: rest ∧ '.' ∉ rest ∧
          ('.' :: rest).map Char.toLower = ['.', 'p', 'y']) ∧
    ((∃ pre, surrogatePyPath.points = pre ++ wide ".py") ∧
      PyUnicode_AsUTF8 surrogatePyPath = none ∧
      allowed surrogatePyPath = none ∧
      spython_open_for_import demoHost surrogatePyPath {} = .crashed []) :=
  ⟨⟨by decide, fun h => absurd ((specAllowed_iff _).mpr h) (by decide)⟩,
    ⟨_, rfl⟩, by decide, by decide, by decide⟩

/-! ## Streams -/

theorem stream_setStream (w : World) (f : FILE) (s : Stream) :
    (w.setStream f s).stream f = s := by
  cases f <;> rfl

theorem stream_fprintf (w : World) (f : FILE) (t : String)
    (h : (w.stream f).closed = false) :
    (fprintf w f t).stream f = { written := (w.stream f).written ++ [t], closed := false } := by
  unfold fprintf
  rw [if_neg (by simp [h]), stream_setStream]
  simp [h]

theorem stream_setErr (w : World) (e : PyErr) (f : FILE) :
    (w.setErr e).stream f = w.stream f := by
  cases f <;> rfl

theorem calls_fprintf (w : World) (f : FILE) (t : String) :
    (fprintf w f t).calls = w.calls := by
  unfold fprintf
  split
  · rfl
  · cases f <;> rfl

/-! ## The bound check of `hook_code_new` -/

theorem charVal_le (rt : Runtime) (b : UInt8) : charVal rt b ≤ (b.toNat : Int) := by
  unfold charVal
  split <;> omega

theorem charVal_zero (rt : Runtime) : charVal rt 0 = 0 := by
  unfold charVal
  rw [if_neg (by simp)]
  rfl

theorem charVal_of_nonneg (rt : Runtime) (b : UInt8) (h : 0 ≤ charVal rt b) :
    charVal rt b = (b.toNat : Int) := by
  unfold charVal at h ⊢
  have := b.toNat_lt
  split at h
  · omega
  · rw [if_neg (by assumption)]

theorem eq_of_charVal_eq (rt : Runtime) (op : UInt8)
    (h : charVal rt op = (rt.STORE_FAST.toNat : Int)) : op = rt.STORE_FAST := by
  have h1 := charVal_of_nonneg rt op (by omega)
  exact UInt8.ext (by omega)

theorem scan_none_of_below (rt : Runtime) (nlocals : Int) : ∀ code : List UInt8,
    (∀ ins ∈ instructions code, ins.1 = rt.STORE_FAST → (ins.2.toNat : Int) < nlocals) →
    scanStoreFast rt nlocals code = none
  | [], _ => rfl
  | [op], h => by
    unfold scanStoreFast
    rw [if_neg]
    rintro ⟨h1, h2⟩
    have := h (op, 0) (by simp [instructions]) (eq_of_charVal_eq rt op h1)
    rw [charVal_zero] at h2
    simp at this
    omega
  | op :: arg :: rest, h => by
    unfold scanStoreFast
    rw [if_neg]
    · exact scan_none_of_below rt nlocals rest
        (fun ins hi => h ins (by simp [instructions, hi]))
    · rintro ⟨h1, h2⟩
      have := h (op, arg) (by simp [instructions]) (eq_of_charVal_eq rt op h1)
      have := charVal_le rt arg
      simp at *
      omega

theorem scan_some (rt : Runtime) (nlocals : Int) : ∀ (code : List UInt8) (index : Int),
    scanStoreFast rt nlocals code = some index →
    ∃ before ins after, instructions code = before ++ ins :: after ∧
      (∀ x ∈ before, ¬ offending rt nlocals x) ∧
      offending rt nlocals ins ∧ ins.1 = rt.STORE_FAST ∧ index = charVal rt ins.2
  | [], _, h => by simp [scanStoreFast] at h
  | [op], index, h => by
    unfold scanStoreFast at h
    split at h
    · rename_i hc
      exact ⟨[], (op, 0), [], by simp [instructions], by simp, hc,
        eq_of_charVal_eq rt op hc.1, by simpa using h.symm⟩
    · simp at h
  | op :: arg :: rest, index, h => by
    unfold scanStoreFast at h
    split at h
    · rename_i hc
      exact ⟨[], (op, arg), instructions rest, by simp [instructions], by simp, hc,
        eq_of_charVal_eq rt op hc.1, by simpa using h.symm⟩
    · rename_i hc
      obtain ⟨before, ins, after, e1, e2, e3, e4, e5⟩ := scan_some rt nlocals rest index h
      refine ⟨(op, arg) :: before, ins, after, by simp [instructions, e1], ?_, e3, e4, e5⟩
      intro x hx
      rcases List.mem_cons.mp hx with e | hm
      · subst e
        exact hc
      · exact e2 x hm

/-- The bound check reads an instruction as the specification does where `char`
is unsigned, and also where `STORE_FAST` and the operand byte are below 128. -/
theorem offending_iff_exceeds (rt : Runtime) (nlocals : Int) (ins : UInt8 × UInt8)
    (h : rt.charSigned = false ∨ (rt.STORE_FAST.toNat < 128 ∧ ins.2.toNat < 128)) :
    offending rt nlocals ins ↔ exceeds rt nlocals ins := by
  have hop : charVal rt ins.1 = (rt.STORE_FAST.toNat : Int) ↔ ins.1 = rt.STORE_FAST := by
    constructor
    · exact eq_of_charVal_eq rt ins.1
    · intro e
      rw [e]
      unfold charVal
      rcases h with h | h
      · simp [h]
      · rw [if_neg (by omega)]
  have harg : charVal rt ins.2 = (ins.2.toNat : Int) := by
    unfold charVal
    rcases h with h | h
    · simp [h]
    · rw [if_neg (by omega)]
  unfold offending exceeds
  rw [hop, harg]

theorem convertInt_long (rt : Runtime) (v : Int) (h : fitsInt v) :
    convertInt rt (.long v) = .ok v := by
  obtain ⟨h1, h2⟩ := h
  have h3 : INT_MAX ≤ LONG_MAX rt := by unfold INT_MAX LONG_MAX; split <;> omega
  have h4 : LONG_MIN rt ≤ INT_MIN := by unfold INT_MIN LONG_MIN; split <;> omega
  simp only [convertInt]
  rw [if_neg (by omega)]
  simp only []
  rw [if_neg (by omega), if_neg (by omega)]

theorem parseCounts_long (rt : Runtime) (a k n s f : Int)
    (ha : fitsInt a) (hk : fitsInt k) (hn : fitsInt n) (hs : fitsInt s) (hf : fitsInt f) :
    parseCounts rt (.long a) (.long k) (.long n) (.long s) (.long f) = .ok (a, k, n, s, f) := by
  unfold parseCounts
  rw [convertInt_long rt a ha, convertInt_long rt k hk, convertInt_long rt n hn,
    convertInt_long rt s hs, convertInt_long rt f hf]
  rfl

/-- C2: at the bytecode `STORE_FAST 1` with `nlocals = 1` the operand index is
`nlocals`, yet `hook_code_new` returns `0` (Allow) and writes only the file name
line: the check is `wcode[i + 1] > nlocals`. -/
theorem C2_store_at_nlocals_is_allowed :
    (demoRuntime.STORE_FAST, (1 : UInt8)) ∈ instructions [125, 1] ∧
    ((1 : UInt8).toNat : Int) ≥ 1 ∧
    hook_code_new demoRuntime "code.__new__"
        (codeNewArgs [125, 1] (.unicode "<string>") (.unicode "f") 0 0 1 1 0) FILE.log {} =
      (0, { log := { written := ["code.__new__: compiling: '<string>'\n"] } }) := by
  decide

/-- C7: for a well-formed `code.__new__` event (a bytes object, a file name whose
representation renders, a name and five counts that fit `int`) in which every
`STORE_FAST` instruction has an operand index strictly below `nlocals`,
`hook_code_new` returns `0` (Allow), having written the file name line only. -/
theorem C7_stores_below_nlocals_allowed (rt : Runtime) (event : String)
    (code : List UInt8) (filename name : PyObject) (argcount kwonlyargcount nlocals
    stacksize flags : Int) (r : String) (audit_log : FILE) (w : World)
    (ha : fitsInt argcount) (hk : fitsInt kwonlyargcount) (hn : fitsInt nlocals)
    (hs : fitsInt stacksize) (hf : fitsInt flags)
    (hrepr : rt.repr filename = .ok r)
    (hbelow : ∀ ins ∈ instructions code,
      ins.1 = rt.STORE_FAST → (ins.2.toNat : Int) < nlocals) :
    hook_code_new rt event
        (codeNewArgs code filename name argcount kwonlyargcount nlocals stacksize flags)
        audit_log w =
      (0, fprintf w audit_log (logLine event ("compiling: " ++ r))) := by
  simp only [hook_code_new, codeNewArgs, parseCounts_long rt _ _ _ _ _ ha hk hn hs hf, fmtR,
    hrepr, scan_none_of_below rt nlocals code hbelow]

/-- C7 at the bytecode `LOAD_CONST 0; STORE_FAST 2; RETURN_VALUE` with
`nlocals = 3`, whose only store has operand `nlocals - 1`. -/
theorem C7_stores_below_nlocals_allowed_witness :
    hook_code_new demoRuntime "code.__new__"
        (codeNewArgs [100, 0, 125, 2, 83, 0] (.unicode "<string>") (.unicode "f") 0 0 3 1 0)
        FILE.log {} =
      (0, fprintf {} FILE.log (logLine "code.__new__" ("compiling: " ++ "'<string>'"))) :=
  C7_stores_below_nlocals_allowed demoRuntime "code.__new__" [100, 0, 125, 2, 83, 0]
    (.unicode "<string>") (.unicode "f") 0 0 3 1 0 "'<string>'" FILE.log {}
    (by decide) (by decide) (by decide) (by decide) (by decide) rfl (by decide)

/-- Whenever `hook_code_new` denies a well-formed event whose bytecode is a
bytes object, the bytecode has a first instruction the bound check objects to, a
`STORE_FAST`, and the log has received, after the file name line, the line
`<event>: code stores to local <index> but only allocates <nlocals>` with the
operand of that instruction and the declared `nlocals`; for `nlocals ≥ 0` the
operand printed is the operand byte itself. The check reads opcode and operand
through `char *`; `offending_iff_exceeds` says where that is the plain reading. -/
theorem denial_line_first_offending (rt : Runtime) (event : String)
    (code : List UInt8) (filename name : PyObject) (argcount kwonlyargcount nlocals
    stacksize flags : Int) (r : String) (audit_log : FILE) (w : World)
    (ha : fitsInt argcount) (hk : fitsInt kwonlyargcount) (hn : fitsInt nlocals)
    (hs : fitsInt stacksize) (hf : fitsInt flags)
    (hrepr : rt.repr filename = .ok r)
    (hopen : (w.stream audit_log).closed = false)
    (hdeny : (hook_code_new rt event
        (codeNewArgs code filename name argcount kwonlyargcount nlocals stacksize flags)
        audit_log w).1 = -1) :
    ∃ before ins after,
      instructions code = before ++ ins :: after ∧
      (∀ x ∈ before, ¬ offending rt nlocals x) ∧
      offending rt nlocals ins ∧ ins.1 = rt.STORE_FAST ∧
      (0 ≤ nlocals → charVal rt ins.2 = (ins.2.toNat : Int)) ∧
      ((hook_code_new rt event
        (codeNewArgs code filename name argcount kwonlyargcount nlocals stacksize flags)
        audit_log w).2.stream audit_log).written =
        (w.stream audit_log).written ++
          [logLine event ("compiling: " ++ r),
           event ++ ": code stores to local " ++ toString (charVal rt ins.2) ++
             " but only allocates " ++ toString nlocals ++ "\n"] := by
  simp only [hook_code_new, codeNewArgs, parseCounts_long rt _ _ _ _ _ ha hk hn hs hf, fmtR,
    hrepr] at hdeny ⊢
  cases hscan : scanStoreFast rt nlocals code with
  | none => rw [hscan] at hdeny; simp at hdeny
  | some index =>
    obtain ⟨before, ins, after, e1, e2, e3, e4, e5⟩ := scan_some rt nlocals code index hscan
    refine ⟨before, ins, after, e1, e2, e3, e4, ?_, ?_⟩
    · intro h0
      exact charVal_of_nonneg rt ins.2 (by have := e3.2; omega)
    · have h1 := stream_fprintf w audit_log (logLine event ("compiling: " ++ r)) hopen
      simp only []
      rw [stream_fprintf, stream_setErr, h1, e5]
      · simp
      · rw [stream_setErr, h1]

theorem charVal_plain (rt : Runtime) (b : UInt8)
    (h : rt.charSigned = false ∨ b.toNat < 128) : charVal rt b = (b.toNat : Int) := by
  unfold charVal
  rcases h with h | h
  · simp [h]
  · rw [if_neg (by omega)]

/-- C8: with `STORE_FAST = 125`, signed `char` and `nlocals = 1`, the bytecode
`STORE_FAST 200; STORE_FAST 3` is denied and the line after the file name line is
`code.__new__: code stores to local 3 but only allocates 1`, although the first
instruction whose operand exceeds the limit is `STORE_FAST 200`: read through
`char *` the operand 200 is `-56` and passes the test. With unsigned `char` the
same event gives the line for local 200. Where `char` is unsigned, or `STORE_FAST`
and every operand byte are below 128, the line of every denial of a well-formed
event names the operand byte of the first `STORE_FAST` instruction whose operand
byte is greater than `nlocals`, and the declared `nlocals`. -/
theorem C8_signed_char_skips_first_exceeding_store :
    (instructions [125, 200, 125, 3] = [(125, 200), (125, 3)] ∧
      exceeds demoRuntime 1 (125, 200) ∧
      ¬ offending demoRuntime 1 (125, 200) ∧
      hook_code_new demoRuntime "code.__new__"
          (codeNewArgs [125, 200, 125, 3] (.unicode "<string>") (.unicode "f") 0 0 1 1 0)
          FILE.log {} =
        (-1, { log := { written := ["code.__new__: compiling: '<string>'\n",
                 "code.__new__: code stores to local 3 but only allocates 1\n"] },
               pyErr := some ⟨"ValueError", "invalid code object"⟩ }) ∧
      hook_code_new { demoRuntime with charSigned := false } "code.__new__"
          (codeNewArgs [125, 200, 125, 3] (.unicode "<string>") (.unicode "f") 0 0 1 1 0)
          FILE.log {} =
        (-1, { log := { written := ["code.__new__: compiling: '<string>'\n",
                 "code.__new__: code stores to local 200 but only allocates 1\n"] },
               pyErr := some ⟨"ValueError", "invalid code object"⟩ })) ∧
    (∀ (rt : Runtime) (event : String) (code : List UInt8) (filename name : PyObject)
      (argcount kwonlyargcount nlocals stacksize flags : Int) (r : String)
      (audit_log : FILE) (w : World),
      fitsInt argcount → fitsInt kwonlyargcount → fitsInt nlocals → fitsInt stacksize →
      fitsInt flags → rt.repr filename = .ok r → (w.stream audit_log).closed = false →
      (rt.charSigned = false ∨
        (rt.STORE_FAST.toNat < 128 ∧ ∀ ins ∈ instructions code, ins.2.toNat < 128)) →
      (hook_code_new rt event
        (codeNewArgs code filename name argcount kwonlyargcount nlocals stacksize flags)
        audit_log w).1 = -1 →
      ∃ before ins after,
        instructions code = before ++ ins :: after ∧
        (∀ x ∈ before, ¬ exceeds rt nlocals x) ∧
        exceeds rt nlocals ins ∧
        ((hook_code_new rt event
          (codeNewArgs code filename name argcount kwonlyargcount nlocals stacksize flags)
          audit_log w).2.stream audit_log).written =
          (w.stream audit_log).written ++
            [logLine event ("compiling: " ++ r),
             event ++ ": code stores to local " ++ toString (ins.2.toNat : Int) ++
               " but only allocates " ++ toString nlocals ++ "\n"]) := by
  refine ⟨⟨by decide, ?_, ?_, by decide, by decide⟩, ?_⟩
  · unfold exceeds
    decide
  · unfold offending
    decide
  · intro rt event code filename name argcount kwonlyargcount nlocals stacksize flags r
      audit_log w ha hk hn hs hf hrepr hopen hplain hdeny
    obtain ⟨before, ins, after, e1, e2, e3, _, _, e6⟩ :=
      denial_line_first_offending rt event code filename name argcount kwonlyargcount
        nlocals stacksize flags r audit_log w ha hk hn hs hf hrepr hopen hdeny
    have hmem : ∀ x ∈ before ++ ins :: after,
        rt.charSigned = false ∨ (rt.STORE_FAST.toNat < 128 ∧ x.2.toNat < 128) := by
      intro x hx
      rcases hplain with h | ⟨h1, h2⟩
      · exact Or.inl h
      · exact Or.inr ⟨h1, h2 x (e1 ▸ hx)⟩
    have hins := hmem ins (by simp)
    refine ⟨before, ins, after, e1, ?_, ?_, ?_⟩
    · intro x hx hex
      exact e2 x hx ((offending_iff_exceeds rt nlocals x (hmem x (by simp [hx]))).mpr hex)
    · exact (offending_iff_exceeds rt nlocals ins hins).mp e3
    · rw [e6, charVal_plain rt ins.2 (hins.imp id (fun h => h.2))]

/-! ## The denying hooks -/

/-- C3: whatever the argument tuple (and whatever the runtime, the log stream and the
state), `default_spython_hook` returns `-1` (Deny) on `pickle.find_class` and on
`system`. -/
theorem C3_find_class_and_system_always_deny (rt : Runtime) (args : List PyObject)
    (userData : FILE) (w : World) :
    (default_spython_hook rt "pickle.find_class" args userData w).1 = -1 ∧
    (default_spython_hook rt "system" args userData w).1 = -1 := by
  constructor
  · simp only [default_spython_hook, hook_pickle_find_class]
    simp
    split <;> rfl
  · simp only [default_spython_hook, hook_system]
    simp
    split <;> rfl

theorem openStream_calls (h : Host) (path : String) (w : World) :
    ∃ tail, (openStream h path w).2.calls = w.calls ++ tail ∧
      ∀ c ∈ tail, c.isAudit = false := by
  unfold openStream
  by_cases hw : h.MS_WINDOWS = true
  · rw [if_pos hw]
    cases h1 : h.asWideChar path with
    | error e => exact ⟨[.PyUnicode_AsWideCharString path], rfl, by simp [Call.isAudit]⟩
    | ok _ =>
      cases h2 : h.createFile path with
      | error e =>
        exact ⟨[.PyUnicode_AsWideCharString path, .CreateFileW path],
          by simp [World.call, World.setErr], by simp [Call.isAudit]⟩
      | ok hFile =>
        cases h3 : h.openOsfhandle hFile with
        | error e =>
          exact ⟨[.PyUnicode_AsWideCharString path, .CreateFileW path,
            .open_osfhandle hFile, .CloseHandle hFile],
            by simp [h3, World.call, World.setErr], by simp [Call.isAudit]⟩
        | ok fd =>
          refine ⟨[.PyUnicode_AsWideCharString path, .CreateFileW path,
            .open_osfhandle hFile, .io_open_fd fd], ?_, by simp [Call.isAudit]⟩
          cases h4 : h.ioOpenFd fd <;> simp [h3, h4, World.call, World.setErr]
  · rw [if_neg hw]
    refine ⟨[.io_open_path path], ?_, by simp [Call.isAudit]⟩
    cases h.ioOpenPath path <;> simp [World.call, World.setErr]

/-- The calls of the gate on a path with the text `text`: it returns, the audit
event comes first, no other audit event after it, and nothing at all after it when
the event is vetoed or the path is disallowed. -/
theorem open_for_import_trace (h : Host) (path : PyStr) (text : String)
    (henc : path.text = some text) (w : World) :
    ∃ stream w' tail, spython_open_for_import h path w = .returned stream w' ∧
      w'.calls = w.calls ++ Call.PySys_Audit "spython.open_for_import"
          [.unicode text, .bool (!disallow (utf8Bytes text))] :: tail ∧
      (∀ c ∈ tail, c.isAudit = false) ∧
      (tail ≠ [] → disallow (utf8Bytes text) = false ∧
        h.audit "spython.open_for_import"
          [.unicode text, .bool (!disallow (utf8Bytes text))] = none) ∧
      (disallow (utf8Bytes text) = true → stream = none ∧ w'.io = w.io ∧
        w'.pyErr =
          match h.audit "spython.open_for_import"
            [.unicode text, .bool (!disallow (utf8Bytes text))] with
          | some e => some e
          | none => some ⟨"OSError", "invalid format"⟩) := by
  unfold spython_open_for_import
  simp only [PyUnicode_AsUTF8, henc, Option.map]
  cases hv : h.audit "spython.open_for_import"
      [.unicode text, .bool (!disallow (utf8Bytes text))] with
  | some e =>
    exact ⟨_, _, [], rfl, by simp [World.call, World.setErr], by simp, by simp,
      fun _ => ⟨rfl, rfl, rfl⟩⟩
  | none =>
    cases hd : disallow (utf8Bytes text) with
    | true =>
      exact ⟨_, _, [], rfl, by simp [World.call, World.setErr], by simp, by simp,
        fun _ => ⟨rfl, rfl, rfl⟩⟩
    | false =>
      simp only [Bool.not_false, Bool.false_eq_true, if_false]
      cases hio : w.io with
      | some io =>
        have e1 : (w.call (.PySys_Audit "spython.open_for_import"
            [.unicode text, .bool true])).io = some io := hio
        simp only [e1]
        obtain ⟨tail, t1, t2⟩ := openStream_calls h text
          (w.call (.PySys_Audit "spython.open_for_import" [.unicode text, .bool true]))
        exact ⟨_, _, tail, rfl, by rw [t1]; simp [World.call], t2, by simp, by simp⟩
      | none =>
        have e1 : (w.call (.PySys_Audit "spython.open_for_import"
            [.unicode text, .bool true])).io = none := hio
        simp only [e1]
        cases h.importIo with
        | error e =>
          exact ⟨_, _, [.PyImport_ImportModule "_io"], rfl,
            by simp [World.call, World.setErr], by simp [Call.isAudit], by simp, by simp⟩
        | ok io =>
          obtain ⟨tail, t1, t2⟩ := openStream_calls h text
            { (w.call (.PySys_Audit "spython.open_for_import"
                [.unicode text, .bool true])).call (.PyImport_ImportModule "_io") with
              io := some io }
          refine ⟨_, _, .PyImport_ImportModule "_io" :: tail, rfl, ?_, ?_, by simp,
            by simp⟩
          · rw [t1]; simp [World.call]
          · intro c hc
            rcases List.mem_cons.mp hc with rfl | hm
            · rfl
            · exact t2 c hm

theorem allowed_false_iff (path : PyStr) (text : String) (henc : path.text = some text) :
    allowed path = some false ↔ disallow (utf8Bytes text) = true := by
  rw [allowed_of_text path text henc]
  cases disallow (utf8Bytes text) <;> simp

theorem allowed_true_iff (path : PyStr) (text : String) (henc : path.text = some text) :
    allowed path = some true ↔ disallow (utf8Bytes text) = false := by
  rw [allowed_of_text path text henc]
  cases disallow (utf8Bytes text) <;> simp

theorem disallow_of_no_dot (text : String) (h : '.' ∉ text.data) :
    disallow (utf8Bytes text) = true := by
  unfold disallow
  rw [strrchr_not_mem dotByte (by decide)]
  intro hm
  have hm2 : dotByte ∈ utf8Bytes text := (List.takeWhile_sublist _).subset hm
  obtain ⟨c, hc, hb⟩ := List.mem_flatMap.mp hm2
  rw [dot_mem_utf8 c hb] at hc
  exact h hc

/-- C5: the path `mod\udc80.py` holds a lone surrogate, so `PyUnicode_AsUTF8`
returns NULL for it and `spython_open_for_import` dies in `strrchr`, on every
host and in every state, before it has raised the audit event or made any other
call. On every path that UTF-8 can encode, allowed or not, the first thing the
gate does is raise the audit event `spython.open_for_import` with the arguments
`(path, allowed)`; it raises no other audit event itself, every other call it
makes (the import of `_io`, the opening of the file) comes after it, and on a
disallowed path it is the only call made before the failure is returned. -/
theorem C5_no_audit_event_for_surrogate_path :
    (surrogatePyPath.points = wide "mod" ++ [CodePoint.surrogate 1152] ++ wide ".py" ∧
      PyUnicode_AsUTF8 surrogatePyPath = none ∧
      (∀ (h : Host) (w : World),
        spython_open_for_import h surrogatePyPath w = .crashed w.calls) ∧
      spython_open_for_import demoHost surrogatePyPath {} = .crashed []) ∧
    (∀ (h : Host) (path : PyStr) (text : String) (w : World), path.text = some text →
      ∃ b stream w' tail, allowed path = some b ∧
        spython_open_for_import h path w = .returned stream w' ∧
        w'.calls = w.calls ++ Call.PySys_Audit "spython.open_for_import"
          [.unicode text, .bool b] :: tail ∧
        (∀ c ∈ tail, c.isAudit = false) ∧
        (b = false → tail = [] ∧ stream = none)) := by
  refine ⟨⟨rfl, by decide, fun h w => rfl, by decide⟩, ?_⟩
  intro h path text w henc
  obtain ⟨stream, w', tail, t0, t1, t2, t3, t4⟩ := open_for_import_trace h path text henc w
  refine ⟨_, stream, w', tail, allowed_of_text path text henc, t0, t1, t2, fun hb => ?_⟩
  have hd : disallow (utf8Bytes text) = true := by simpa using hb
  refine ⟨?_, (t4 hd).1⟩
  by_contra hne
  have := (t3 hne).1
  rw [hd] at this
  exact Bool.noConfusion this

/-- C6 (amended): on every path that UTF-8 can encode (`text` is its text) the
gate returns. If the decision is `allowed = false`, as it is for every path
without a `'.'`, it returns no stream, makes no call after the audit event (`_io`
is not imported, no file is opened) and leaves an error set: `OSError: invalid
format`, unless the audit event was vetoed, in which case it is the error of the
veto. An import or a file open is attempted only when `allowed = true` and the
audit event was not vetoed. -/
theorem C6_disallowed_path_fails_without_file_access (h : Host) (path : PyStr)
    (text : String) (w : World) (henc : path.text = some text) :
    ∃ stream w', spython_open_for_import h path w = .returned stream w' ∧
      ('.' ∉ text.data → allowed path = some false) ∧
      (allowed path = some false →
        stream = none ∧
        w'.calls = w.calls ++ [Call.PySys_Audit "spython.open_for_import"
          [.unicode text, .bool false]] ∧
        w'.pyErr =
          match h.audit "spython.open_for_import" [.unicode text, .bool false] with
          | some e => some e
          | none => some ⟨"OSError", "invalid format"⟩) ∧
      (∀ c ∈ w'.calls.drop w.calls.length,
        c.isImport = true ∨ c.opensFile = true →
          allowed path = some true ∧
          h.audit "spython.open_for_import" [.unicode text, .bool true] = none) := by
  obtain ⟨stream, w', tail, t0, t1, _, t3, t4⟩ := open_for_import_trace h path text henc w
  refine ⟨stream, w', t0,
    fun hdot => (allowed_false_iff path text henc).mpr (disallow_of_no_dot text hdot), ?_, ?_⟩
  · intro ha
    have hd := (allowed_false_iff path text henc).mp ha
    have hnil : tail = [] := by
      by_contra hne
      have := (t3 hne).1
      rw [hd] at this
      exact Bool.noConfusion this
    rw [hd, hnil] at t1
    have := t4 hd
    rw [hd] at this
    exact ⟨this.1, t1, this.2.2⟩
  · intro c hc hkind
    rw [t1, List.drop_left] at hc
    have hne : tail ≠ [] := by
      rintro rfl
      simp only [List.mem_singleton] at hc
      subst hc
      simp [Call.isImport, Call.opensFile] at hkind
    have h1 := (t3 hne).1
    have h2 := (t3 hne).2
    rw [h1] at h2
    exact ⟨(allowed_true_iff path text henc).mpr h1, h2⟩

/-- C6 at the path `"mod"`, which has no extension, on a host where no hook
objects. -/
theorem C6_disallowed_path_fails_without_file_access_witness :
    (PyStr.ofString "mod").text = some "mod" ∧
    ∃ stream w', spython_open_for_import demoHost (PyStr.ofString "mod") {} =
        .returned stream w' ∧
      ('.' ∉ "mod".data → allowed (PyStr.ofString "mod") = some false) ∧
      (allowed (PyStr.ofString "mod") = some false →
        stream = none ∧
        w'.calls = ({} : World).calls ++ [Call.PySys_Audit "spython.open_for_import"
          [.unicode "mod", .bool false]] ∧
        w'.pyErr =
          match demoHost.audit "spython.open_for_import" [.unicode "mod", .bool false] with
          | some e => some e
          | none => some ⟨"OSError", "invalid format"⟩) ∧
      (∀ c ∈ w'.calls.drop ({} : World).calls.length,
        c.isImport = true ∨ c.opensFile = true →
          allowed (PyStr.ofString "mod") = some true ∧
          demoHost.audit "spython.open_for_import" [.unicode "mod", .bool true] = none) :=
  ⟨by decide,
    C6_disallowed_path_fails_without_file_access demoHost (PyStr.ofString "mod") "mod" {}
      (by decide)⟩

/-- C6 as stated fails in two ways. When a hook vetoes the audit event: on the
disallowed path `"mod.txt"` the gate returns no stream, but the error left is the
one of the veto, not an `OSError`. On a path with a lone surrogate: for
`mod\udc80`, which has no extension, `PyUnicode_AsUTF8` returns NULL and the gate
dies in `strrchr` instead of returning a failure. -/
theorem C6_counterexample_veto_or_surrogate :
    (allowed (PyStr.ofString "mod.txt") = some false ∧
      spython_open_for_import vetoHost (PyStr.ofString "mod.txt") {} =
        .returned none
          { calls := [Call.PySys_Audit "spython.open_for_import"
              [.unicode "mod.txt", .bool false]],
            pyErr := some ⟨"RuntimeError", "vetoed"⟩ } ∧
      ("RuntimeError" : String) ≠ "OSError") ∧
    ((∀ p ∈ surrogatePath.points, p ≠ CodePoint.scalar '.') ∧
      PyUnicode_AsUTF8 surrogatePath = none ∧
      spython_open_for_import demoHost surrogatePath {} = .crashed []) := by
  decide

/-! ## The fallback of `default_spython_hook` -/

/-- C10 (amended): without a script path (`argc == 1`) `spython_main` returns exit
code `1` and its only effect is a write to standard error: the usage message
`usage: <program> file [arg] ...` when `%ls` can convert the program name in the
locale in force, and only `usage: ` when it cannot. No call into the runtime is
made (no hook registered, no import gate installed, no initialisation), the
hardening flags and the log stream are untouched; this holds whether the log
stream is NULL, open or closed. -/
theorem C10_missing_script_is_usage_error (h : Host) (program : WideStr)
    (audit_log : Option FILE) (w : World) (hopen : w.stderr.closed = false) :
    (∀ name, h.wideToMultibyte w.pyReady program = some name →
      spython_main h program [] audit_log w =
        (.exit 1, { w with stderr := { written := w.stderr.written ++
            ["usage: " ++ name ++ " file [arg] ...\n"], closed := false } })) ∧
    (h.wideToMultibyte w.pyReady program = none →
      spython_main h program [] audit_log w =
        (.exit 1, { w with stderr :=
          { written := w.stderr.written ++ ["usage: "], closed := false } })) ∧
    (spython_main h program [] audit_log w).1 = .exit 1 ∧
    (spython_main h program [] audit_log w).2.calls = w.calls ∧
    (spython_main h program [] audit_log w).2.stdout = w.stdout ∧
    (spython_main h program [] audit_log w).2.log = w.log ∧
    (spython_main h program [] audit_log w).2.pyReady = w.pyReady ∧
    (spython_main h program [] audit_log w).2.Py_IgnoreEnvironmentFlag =
      w.Py_IgnoreEnvironmentFlag ∧
    (spython_main h program [] audit_log w).2.Py_NoSiteFlag = w.Py_NoSiteFlag ∧
    (spython_main h program [] audit_log w).2.Py_NoUserSiteDirectory =
      w.Py_NoUserSiteDirectory ∧
    (spython_main h program [] audit_log w).2.Py_DontWriteBytecodeFlag =
      w.Py_DontWriteBytecodeFlag := by
  have e : ∀ t : String, fprintf w FILE.stderr t =
      { w with stderr := { written := w.stderr.written ++ [t], closed := false } } := by
    intro t
    simp [fprintf, World.stream, World.setStream, hopen]
  refine ⟨?_, ?_, ?_⟩
  · intro name hc
    simp [spython_main, spython_usage, fprintfWide, hc, e]
  · intro hc
    simp [spython_main, spython_usage, fprintfWide, hc, e]
  · cases hc : h.wideToMultibyte w.pyReady program <;>
      simp [spython_main, spython_usage, fprintfWide, hc, e]

/-- C10 for the program `spython` started in the C locale without arguments and
without a log stream. -/
theorem C10_missing_script_is_usage_error_witness :
    ({} : World).stderr.closed = false ∧
    spython_main demoHost (wide "spython") [] none {} =
      (.exit 1, { stderr := { written := ["usage: spython file [arg] ...\n"] } }) :=
  ⟨rfl, ((C10_missing_script_is_usage_error demoHost (wide "spython") none {} rfl).1
    "spython" (by decide)).trans (by decide)⟩

/-- C10 as stated fails for a program name that `%ls` cannot convert: started in
the C locale as `spythön` without arguments, the launcher returns `1` but what it
has written to standard error is `usage: ` and nothing more. -/
theorem C10_counterexample_unconvertible_program_name :
    demoHost.wideToMultibyte false (wide "spythön") = none ∧
    spython_main demoHost (wide "spythön") [] none {} =
      (.exit 1, { stderr := { written := ["usage: "] } }) ∧
    ({} : World).stderr.written ++ ["usage: " ++ "spythön" ++ " file [arg] ...\n"] ≠
      (spython_main demoHost (wide "spythön") [] none {}).2.stderr.written := by
  decide

/-! ## The preview of `hook_compile` -/

theorem stream_fprintfAll (f : FILE) : ∀ (texts : List String) (w : World),
    (w.stream f).closed = false →
    (fprintfAll w f texts).stream f =
      { written := (w.stream f).written ++ texts, closed := false }
  | [], w, h => by
    cases hs : w.stream f with
    | mk written closed =>
      rw [hs] at h
      simp only [fprintfAll, List.foldl_nil, List.append_nil, hs]
      simp only at h
      rw [h]
  | t :: texts, w, h => by
    have h1 := stream_fprintf w f t h
    have h2 := stream_fprintfAll f texts (fprintf w f t) (by rw [h1])
    simp only [fprintfAll, List.foldl_cons] at h2 ⊢
    rw [h2, h1]
    simp

theorem calls_fprintfAll (f : FILE) : ∀ (texts : List String) (w : World),
    (fprintfAll w f texts).calls = w.calls
  | [], _ => rfl
  | t :: texts, w => by
    have h2 := calls_fprintfAll f texts (fprintf w f t)
    simp only [fprintfAll, List.foldl_cons] at h2 ⊢
    rw [h2, calls_fprintf]

/-- C14 (amended): in the non-debug build, with a script argument and a log stream
that is not NULL. When the script file is opened and `PyRun_SimpleFile` returns,
`spython_main` returns exit code `0` whatever the call returns and leaves behind,
after the calls `PyErr_Clear`, `fclose` and `Py_Finalize`; standard error holds
what the runtime printed during the run. When the script ends with an unhandled
`SystemExit` the process exits inside `PyRun_SimpleFile` with the status of the
exception: `spython_main` does not return and `Py_Finalize` is not called by it.
When the script file cannot be opened `spython_main` returns `0`, the runtime is
still initialised and finalised, the script is not run, and the only text written
to standard error is `failed to open source file <path>` when `%ls` can convert
the path in the locale in force, and `failed to open source file ` when it
cannot. -/
theorem C14_exit_code_zero_with_script (h : Host) (program script : WideStr)
    (more : List WideStr) (f : FILE) (w : World) (hrel : h.Py_DEBUG = false) :
    (h.wfopen script = true →
      (∀ result err printed, h.script = .returns result err printed →
        (spython_main h program (script :: more) (some f) w).1 = .exit 0 ∧
        (spython_main h program (script :: more) (some f) w).2.calls =
          w.calls ++ [.PySys_AddAuditHook f, .PyImport_SetOpenForImportHook,
            .Py_SetProgramName program, .Py_Initialize, .PySys_SetArgv (script :: more),
            .Py_wfopen script, .PyRun_SimpleFile, .PyErr_Clear, .fclose_fp,
            .Py_Finalize] ∧
        (spython_main h program (script :: more) (some f) w).2.pyErr = none ∧
        (w.stderr.closed = false →
          (spython_main h program (script :: more) (some f) w).2.stderr.written =
            w.stderr.written ++ printed)) ∧
      (∀ status printed, h.script = .exits status printed →
        (spython_main h program (script :: more) (some f) w).1 = .exitedInside status ∧
        (spython_main h program (script :: more) (some f) w).2.calls =
          w.calls ++ [.PySys_AddAuditHook f, .PyImport_SetOpenForImportHook,
            .Py_SetProgramName program, .Py_Initialize, .PySys_SetArgv (script :: more),
            .Py_wfopen script, .PyRun_SimpleFile])) ∧
    (h.wfopen script = false →
      (spython_main h program (script :: more) (some f) w).1 = .exit 0 ∧
      (spython_main h program (script :: more) (some f) w).2.calls =
        w.calls ++ [.PySys_AddAuditHook f, .PyImport_SetOpenForImportHook,
          .Py_SetProgramName program, .Py_Initialize, .PySys_SetArgv (script :: more),
          .Py_wfopen script, .Py_Finalize] ∧
      (spython_main h program (script :: more) (some f) w).2.stdout = w.stdout ∧
      (w.stderr.closed = false →
        (∀ path, h.wideToMultibyte true script = some path →
          (spython_main h program (script :: more) (some f) w).2.stderr.written =
            w.stderr.written ++ ["failed to open source file " ++ path ++ "\n"]) ∧
        (h.wideToMultibyte true script = none →
          (spython_main h program (script :: more) (some f) w).2.stderr.written =
            w.stderr.written ++ ["failed to open source file "]))) := by
  refine ⟨fun ho => ⟨?_, ?_⟩, ?_⟩
  · intro result err printed hs
    simp only [spython_main, hrel, ho, Bool.false_and, Bool.false_eq_true, if_false,
      if_true, PyRun_SimpleFile, hs]
    refine ⟨trivial, ?_, rfl, ?_⟩
    · simp [World.call, calls_fprintfAll]
    · intro hopen
      have := stream_fprintfAll FILE.stderr printed
        { w with Py_IgnoreEnvironmentFlag := 1, Py_NoSiteFlag := 1,
                 Py_NoUserSiteDirectory := 1, Py_DontWriteBytecodeFlag := 1,
                 pyReady := true,
                 calls := w.calls ++ [.PySys_AddAuditHook f, .PyImport_SetOpenForImportHook,
                   .Py_SetProgramName program, .Py_Initialize,
                   .PySys_SetArgv (script :: more), .Py_wfopen script,
                   .PyRun_SimpleFile] } hopen
      simp only [World.stream] at this
      simp only [World.call, List.append_assoc, List.singleton_append, List.cons_append,
        List.nil_append]
      rw [this]
  · intro status printed hs
    simp only [spython_main, hrel, ho, Bool.false_and, Bool.false_eq_true, if_false,
      if_true, PyRun_SimpleFile, hs]
    exact ⟨trivial, by simp [World.call, calls_fprintfAll]⟩
  · intro ho
    simp only [spython_main, hrel, ho, Bool.false_and, Bool.false_eq_true, if_false]
    refine ⟨trivial, ?_, ?_, ?_⟩
    · cases hc : h.wideToMultibyte true script <;>
        simp [World.call, fprintfWide, calls_fprintf, hc]
    · cases hc : h.wideToMultibyte true script <;>
      · simp [World.call, fprintfWide, fprintf, World.setStream, World.stream, hc]
        split <;> simp
    · intro hopen
      constructor
      · intro path hc
        simp [World.call, fprintfWide, fprintf, World.setStream, World.stream, hopen, hc]
      · intro hc
        simp [World.call, fprintfWide, fprintf, World.setStream, World.stream, hopen, hc]

/-- C14 for `spython script.py` on a host where the script raises: the runtime
prints the traceback, `PyRun_SimpleFile` returns `-1` and the exit code is `0`. -/
theorem C14_exit_code_zero_with_script_witness :
    raisingHost.Py_DEBUG = false ∧
    (spython_main raisingHost (wide "spython") [wide "script.py"] (some FILE.log) {}).1 =
      .exit 0 ∧
    (spython_main raisingHost (wide "spython") [wide "script.py"] (some FILE.log)
        {}).2.calls =
      ({} : World).calls ++ [.PySys_AddAuditHook FILE.log, .PyImport_SetOpenForImportHook,
        .Py_SetProgramName (wide "spython"), .Py_Initialize,
        .PySys_SetArgv [wide "script.py"], .Py_wfopen (wide "script.py"),
        .PyRun_SimpleFile, .PyErr_Clear, .fclose_fp, .Py_Finalize] ∧
    (spython_main raisingHost (wide "spython") [wide "script.py"] (some FILE.log)
        {}).2.pyErr = none ∧
    (({} : World).stderr.closed = false →
      (spython_main raisingHost (wide "spython") [wide "script.py"] (some FILE.log)
          {}).2.stderr.written =
        ({} : World).stderr.written ++ ["Traceback (most recent call last):\n"]) :=
  ⟨rfl, ((C14_exit_code_zero_with_script raisingHost (wide "spython") (wide "script.py") []
    FILE.log {} rfl).1 rfl).1 (-1) none ["Traceback (most recent call last):\n"] rfl⟩

/-- C14 as stated fails in two ways. When the script calls `sys.exit(7)` the
process exits inside `PyRun_SimpleFile` with status 7: `spython_main` returns no
exit code and does not reach `Py_Finalize`. When the script file cannot be opened
and its path is `caf\udce9.py`, which `%ls` cannot convert, the exit code is `0`
but what is written to standard error is `failed to open source file ` and
nothing more. -/
theorem C14_counterexample_exit_in_run_or_unconvertible_path :
    (spython_main exitingHost (wide "spython") [wide "script.py"] (some FILE.log) {} =
      (.exitedInside 7,
        { Py_IgnoreEnvironmentFlag := 1, Py_NoSiteFlag := 1, Py_NoUserSiteDirectory := 1,
          Py_DontWriteBytecodeFlag := 1,
          calls := [.PySys_AddAuditHook FILE.log, .PyImport_SetOpenForImportHook,
            .Py_SetProgramName (wide "spython"), .Py_Initialize,
            .PySys_SetArgv [wide "script.py"], .Py_wfopen (wide "script.py"),
            .PyRun_SimpleFile] }) ∧
      Outcome.exitedInside 7 ≠ Outcome.exit 0) ∧
    (noFileHost.wideToMultibyte true surrogateScript = none ∧
      spython_main noFileHost (wide "spython") [surrogateScript] (some FILE.log) {} =
        (.exit 0,
          { stderr := { written := ["failed to open source file "] },
            Py_IgnoreEnvironmentFlag := 1, Py_NoSiteFlag := 1, Py_NoUserSiteDirectory := 1,
            Py_DontWriteBytecodeFlag := 1,
            calls := [.PySys_AddAuditHook FILE.log, .PyImport_SetOpenForImportHook,
              .Py_SetProgramName (wide "spython"), .Py_Initialize,
              .PySys_SetArgv [surrogateScript], .Py_wfopen surrogateScript,
              .Py_Finalize] })) := by
  decide

/-! ## The log entries of a decision -/

theorem stream_getItem (args : List PyObject) (i : Nat) (w : World) (f : FILE) :
    (PyTuple_GetItem args i w).2.stream f = w.stream f := by
  unfold PyTuple_GetItem
  split
  · rfl
  · exact stream_setErr _ _ _

theorem fst_getItem (args : List PyObject) (i : Nat) (w : World) :
    (PyTuple_GetItem args i w).1 = args.get? i := by
  unfold PyTuple_GetItem
  split <;> simp_all

theorem stream_isTrueTest (rt : Runtime) (o : PyObject) (w : World) (f : FILE) :
    (isTrueTest rt o w).2.stream f = w.stream f := by
  unfold isTrueTest
  split
  · rfl
  · exact stream_setErr _ _ _

theorem stream_fclose (w : World) (f : FILE) :
    (fclose w f).stream f = { written := (w.stream f).written, closed := true } := by
  unfold fclose
  rw [stream_setStream]

theorem isLogEntry_logLine (event msg : String) : isLogEntry event (logLine event msg) :=
  ⟨cText msg, rfl⟩

/-- A denial that leaves the stream as it was. -/
theorem logsDecision_none (event : String) (f : FILE) (w w' : World) (allow : Nat)
    (h : w'.stream f = w.stream f) : logsDecision event f w (-1, w') allow 0 :=
  ⟨Or.inr rfl, [], by simp [appended, h], by simp, by simp, by simp⟩

/-- A decision that allows and has written one entry in the log format. -/
theorem logsDecision_allow (event : String) (f : FILE) (w w0 w' : World)
    (text : String) (deny : Nat)
    (hopen : (w.stream f).closed = false) (h0 : w0.stream f = w.stream f)
    (h : (w'.stream f).written = ((fprintf w0 f text).stream f).written)
    (htext : isLogEntry event text) : logsDecision event f w (0, w') 1 deny := by
  refine ⟨Or.inl rfl, [text], ?_, by simpa using htext, by simp, by simp⟩
  unfold appended
  rw [h, stream_fprintf w0 f text (by rw [h0]; exact hopen), h0]

/-- A decision that denies and has written one entry in the log format. -/
theorem logsDecision_deny (event : String) (f : FILE) (w w0 w' : World)
    (text : String) (allow : Nat)
    (hopen : (w.stream f).closed = false) (h0 : w0.stream f = w.stream f)
    (h : (w'.stream f).written = ((fprintf w0 f text).stream f).written)
    (htext : isLogEntry event text) : logsDecision event f w (-1, w') allow 1 := by
  refine ⟨Or.inr rfl, [text], ?_, by simpa using htext, by simp, by simp⟩
  unfold appended
  rw [h, stream_fprintf w0 f text (by rw [h0]; exact hopen), h0]

theorem logs_clearaudithooks (event : String) (args : List PyObject) (f : FILE) (w : World)
    (hopen : (w.stream f).closed = false) :
    logsDecision event f w (hook_clearaudithooks event args f w) 1 0 := by
  unfold hook_clearaudithooks
  apply logsDecision_allow event f w w _ (event ++ ": closing log\n") 0 hopen rfl
  · split
    · rw [stream_fclose]
    · rfl
  · exact ⟨"closing log", by simp [String.append_assoc]⟩

theorem logs_addaudithook (event : String) (args : List PyObject) (f : FILE) (w : World)
    (hopen : (w.stream f).closed = false) :
    logsDecision event f w (hook_addaudithook event args f w) 1 1 := by
  unfold hook_addaudithook
  apply logsDecision_deny event f w w _ (event ++ ": hook was not added\n") 1 hopen rfl
  · rw [stream_setErr]
  · exact ⟨"hook was not added", by simp [String.append_assoc]⟩

theorem logs_exec (rt : Runtime) (event : String) (args : List PyObject) (f : FILE)
    (w : World) (hopen : (w.stream f).closed = false) :
    logsDecision event f w (hook_exec rt event args f w) 1 0 := by
  unfold hook_exec
  split
  · split
    · exact logsDecision_none _ _ _ _ _ (stream_setErr _ _ _)
    · exact logsDecision_allow event f w w _ _ 0 hopen rfl rfl (isLogEntry_logLine _ _)
  · exact logsDecision_none _ _ _ _ _ (stream_setErr _ _ _)

theorem logs_fallback (rt : Runtime) (event : String) (args : List PyObject) (f : FILE)
    (w : World) (hopen : (w.stream f).closed = false) :
    logsDecision event f w
      (match rt.reprTuple args with
        | .error e => (-1, w.setErr e)
        | .ok msg => (0, fprintf w f (logLine event msg))) 1 0 := by
  split
  · exact logsDecision_none _ _ _ _ _ (stream_setErr _ _ _)
  · exact logsDecision_allow event f w w _ _ 0 hopen rfl rfl (isLogEntry_logLine _ _)

theorem logs_open_for_import (rt : Runtime) (event : String) (args : List PyObject)
    (f : FILE) (w : World) (hopen : (w.stream f).closed = false) :
    logsDecision event f w (hook_open_for_import rt event args f w) 1 0 := by
  unfold hook_open_for_import
  simp only []
  have h0 : (PyTuple_GetItem args 1 (PyTuple_GetItem args 0 w).2).2.stream f = w.stream f := by
    rw [stream_getItem, stream_getItem]
  split
  · exact logsDecision_none _ _ _ _ _ (by rw [stream_setErr, h0])
  · exact logsDecision_allow event f w _ _ _ 0 hopen h0 rfl (isLogEntry_logLine _ _)

theorem logs_id (rt : Runtime) (event : String) (args : List PyObject)
    (f : FILE) (w : World) (hopen : (w.stream f).closed = false) :
    logsDecision event f w (hook_id rt event args f w) 1 0 := by
  unfold hook_id
  simp only []
  have h0 : (PyTuple_GetItem args 0 w).2.stream f = w.stream f := stream_getItem _ _ _ _
  split
  · exact logsDecision_none _ _ _ _ _ (by rw [stream_setErr, h0])
  · exact logsDecision_allow event f w _ _ _ 0 hopen h0 rfl (isLogEntry_logLine _ _)

theorem logs_pickle_find_class (rt : Runtime) (event : String) (args : List PyObject)
    (f : FILE) (w : World) (hopen : (w.stream f).closed = false) :
    logsDecision event f w (hook_pickle_find_class rt event args f w) 1
      (if rendered (fmtR rt (args.get? 0)) && rendered (fmtR rt (args.get? 1)) then 1
        else 0) := by
  unfold hook_pickle_find_class
  simp only []
  have h0 : (PyTuple_GetItem args 1 (PyTuple_GetItem args 0 w).2).2.stream f = w.stream f := by
    rw [stream_getItem, stream_getItem]
  rw [fst_getItem, fst_getItem]
  cases hm : fmtR rt (args.get? 0) with
  | error e =>
    simp only [rendered, Bool.false_and, Bool.false_eq_true, if_false]
    exact logsDecision_none _ _ _ _ _ (by rw [stream_setErr, h0])
  | ok m =>
    cases hg : fmtR rt (args.get? 1) with
    | error e =>
      simp only [rendered, Bool.and_false, Bool.false_eq_true, if_false]
      exact logsDecision_none _ _ _ _ _ (by rw [stream_setErr, h0])
    | ok g =>
      simp only [rendered, Bool.and_self, if_true]
      exact logsDecision_deny event f w _ _ _ 1 hopen h0 (by rw [stream_setErr])
        (isLogEntry_logLine _ _)

theorem logs_system (rt : Runtime) (event : String) (args : List PyObject)
    (f : FILE) (w : World) (hopen : (w.stream f).closed = false) :
    logsDecision event f w (hook_system rt event args f w) 1
      (if rendered (fmtS rt (args.get? 0)) then 1 else 0) := by
  unfold hook_system
  simp only []
  have h0 : (PyTuple_GetItem args 0 w).2.stream f = w.stream f := stream_getItem _ _ _ _
  rw [fst_getItem]
  cases hm : fmtS rt (args.get? 0) with
  | error e =>
    simp only [rendered, Bool.false_eq_true, if_false]
    exact logsDecision_none _ _ _ _ _ (by rw [stream_setErr, h0])
  | ok m =>
    simp only [rendered, if_true]
    exact logsDecision_deny event f w _ _ _ 1 hopen h0 (by rw [stream_setErr])
      (isLogEntry_logLine _ _)

theorem logs_import (rt : Runtime) (event : String) (args : List PyObject)
    (f : FILE) (w : World) (hopen : (w.stream f).closed = false) :
    logsDecision event f w (hook_import rt event args f w) 1 0 := by
  unfold hook_import
  split
  · rename_i module filename sysPath sysMetaPath sysPathHooks
    simp only []
    have h0 : (isTrueTest rt filename w).2.stream f = w.stream f := stream_isTrueTest _ _ _ _
    split
    · exact logsDecision_none _ _ _ _ _ (by rw [stream_setErr, h0])
    · exact logsDecision_allow event f w _ _ _ 0 hopen h0 rfl (isLogEntry_logLine _ _)
  · exact logsDecision_none _ _ _ _ _ (stream_setErr _ _ _)

theorem logs_compile_tail (rt : Runtime) (event : String) (filename : PyObject)
    (f : FILE) (w : World) (hopen : (w.stream f).closed = false)
    (msg : Except PyErr String) :
    logsDecision event f w
      (match msg with
        | .error e => (-1, (isTrueTest rt filename w).2.setErr e)
        | .ok msg => (0, fprintf (isTrueTest rt filename w).2 f (logLine event msg))) 1 0 := by
  have h0 : (isTrueTest rt filename w).2.stream f = w.stream f := stream_isTrueTest _ _ _ _
  split
  · exact logsDecision_none _ _ _ _ _ (by rw [stream_setErr, h0])
  · exact logsDecision_allow event f w _ _ _ 0 hopen h0 rfl (isLogEntry_logLine _ _)

theorem logs_compile (rt : Runtime) (event : String) (args : List PyObject)
    (f : FILE) (w : World) (hopen : (w.stream f).closed = false) :
    logsDecision event f w (hook_compile rt event args f w) 1 0 := by
  unfold hook_compile
  split
  · rename_i code filename
    cases htext : (match code with
        | .unicode s => (Except.ok s : Except PyErr String)
        | o => rt.repr o) with
    | error e =>
      simp only [htext]
      exact logsDecision_none _ _ _ _ _ (stream_setErr _ _ _)
    | ok text =>
      simp only [htext]
      exact logs_compile_tail rt event filename f w hopen _
  · exact logsDecision_none _ _ _ _ _ (stream_setErr _ _ _)

theorem logs_setattr (rt : Runtime) (event : String) (args : List PyObject)
    (f : FILE) (w : World) (hopen : (w.stream f).closed = false) :
    logsDecision event f w (hook_setattr rt event args f w)
      (if w.pyReady = false then 0 else 1) 0 := by
  unfold hook_setattr
  split
  · by_cases hr : w.pyReady = true
    · simp only [hr, Bool.not_true, Bool.false_eq_true, if_false, Bool.true_eq_false]
      split
      · exact logsDecision_none _ _ _ _ _ (stream_setErr _ _ _)
      · exact logsDecision_allow event f w w _ _ 0 hopen rfl rfl (isLogEntry_logLine _ _)
    · have hr2 : w.pyReady = false := by simpa using hr
      simp only [hr2, Bool.not_false, if_true]
      exact ⟨Or.inl rfl, [], by simp [appended], by simp, by simp, by simp⟩
  · exact logsDecision_none _ _ _ _ _ (stream_setErr _ _ _)

theorem logs_delattr (rt : Runtime) (event : String) (args : List PyObject)
    (f : FILE) (w : World) (hopen : (w.stream f).closed = false) :
    logsDecision event f w (hook_delattr rt event args f w)
      (if w.pyReady = false then 0 else 1) 0 := by
  unfold hook_delattr
  split
  · by_cases hr : w.pyReady = true
    · simp only [hr, Bool.not_true, Bool.false_eq_true, if_false, Bool.true_eq_false]
      split
      · exact logsDecision_none _ _ _ _ _ (stream_setErr _ _ _)
      · exact logsDecision_allow event f w w _ _ 0 hopen rfl rfl (isLogEntry_logLine _ _)
    · have hr2 : w.pyReady = false := by simpa using hr
      simp only [hr2, Bool.not_false, if_true]
      exact ⟨Or.inl rfl, [], by simp [appended], by simp, by simp, by simp⟩
  · exact logsDecision_none _ _ _ _ _ (stream_setErr _ _ _)

theorem isLogEntry_denial (event : String) (index nlocals : Int) :
    isLogEntry event (event ++ ": code stores to local " ++ toString index ++
      " but only allocates " ++ toString nlocals ++ "\n") := by
  refine ⟨"code stores to local " ++ toString index ++ " but only allocates " ++
    toString nlocals, ?_⟩
  apply String.ext
  simp [String.data_append]

theorem logs_code_new_scan (event : String) (f : FILE) (w : World)
    (hopen : (w.stream f).closed = false) (r : String) (nlocals : Int) (scan : Option Int) :
    logsDecision event f w
      (match scan with
        | some index =>
          (-1, fprintf ((fprintf w f (logLine event ("compiling: " ++ r))).setErr
            ⟨"ValueError", "invalid code object"⟩) f (event ++ ": code stores to local " ++
              toString index ++ " but only allocates " ++ toString nlocals ++ "\n"))
        | none => (0, fprintf w f (logLine event ("compiling: " ++ r)))) 1 2 := by
  have h1 := stream_fprintf w f (logLine event ("compiling: " ++ r)) hopen
  cases scan with
  | none =>
    exact logsDecision_allow event f w w _ _ 2 hopen rfl rfl (isLogEntry_logLine _ _)
  | some index =>
    refine ⟨Or.inr rfl, [logLine event ("compiling: " ++ r),
      event ++ ": code stores to local " ++
      toString index ++ " but only allocates " ++ toString nlocals ++ "\n"], ?_, ?_,
      by simp, by simp⟩
    · unfold appended
      simp only []
      rw [stream_fprintf _ _ _ (by rw [stream_setErr, h1]), stream_setErr, h1]
      simp
    · intro e he
      simp only [List.mem_cons, List.mem_singleton, List.not_mem_nil, or_false] at he
      rcases he with rfl | rfl
      · exact isLogEntry_logLine _ _
      · exact isLogEntry_denial _ _ _

theorem logs_code_new (rt : Runtime) (event : String) (args : List PyObject)
    (f : FILE) (w : World) (hopen : (w.stream f).closed = false) :
    logsDecision event f w (hook_code_new rt event args f w) 1
      (match args with
        | [code, filename, _, a, k, n, s, f] =>
          if rendered (parseCounts rt a k n s f) && rendered (fmtR rt (some filename)) then
            match code with
            | .bytes _ => 2
            | _ => 1
          else 0
        | _ => 0) := by
  unfold hook_code_new
  split
  · rename_i code filename name a k n s fl
    cases hp : parseCounts rt a k n s fl with
    | error e =>
      simp only [rendered, Bool.false_and, Bool.false_eq_true, if_false]
      exact logsDecision_none _ _ _ _ _ (stream_setErr _ _ _)
    | ok counts =>
      obtain ⟨c1, c2, nlocals, c4, c5⟩ := counts
      cases hr : fmtR rt (some filename) with
      | error e =>
        simp only [rendered, Bool.and_false, Bool.false_eq_true, if_false]
        exact logsDecision_none _ _ _ _ _ (stream_setErr _ _ _)
      | ok r =>
        simp only [rendered, Bool.and_self, if_true]
        cases code with
        | bytes wcode => exact logs_code_new_scan event f w hopen _ _ _
        | none =>
          exact logsDecision_deny event f w w _ _ 1 hopen rfl (by rw [stream_setErr])
            (isLogEntry_logLine _ _)
        | bool b =>
          exact logsDecision_deny event f w w _ _ 1 hopen rfl (by rw [stream_setErr])
            (isLogEntry_logLine _ _)
        | long v =>
          exact logsDecision_deny event f w w _ _ 1 hopen rfl (by rw [stream_setErr])
            (isLogEntry_logLine _ _)
        | unicode t =>
          exact logsDecision_deny event f w w _ _ 1 hopen rfl (by rw [stream_setErr])
            (isLogEntry_logLine _ _)
        | object id =>
          exact logsDecision_deny event f w w _ _ 1 hopen rfl (by rw [stream_setErr])
            (isLogEntry_logLine _ _)
  · exact logsDecision_none _ _ _ _ _ (stream_setErr _ _ _)

/-- The entries of a decision of `default_spython_hook`, counted. -/
theorem logs_default (rt : Runtime) (event : String) (args : List PyObject)
    (userData : FILE) (w : World) (hopen : (w.stream userData).closed = false) :
    logsDecision event userData w (default_spython_hook rt event args userData w)
      (allowedEntries event w.pyReady) (deniedEntries rt event args) := by
  by_cases h1 : event = "sys._clearaudithooks"
  · have e : default_spython_hook rt event args userData w =
        hook_clearaudithooks event args userData w := by
      unfold default_spython_hook
      rw [if_pos h1]
    have ha := logs_clearaudithooks event args userData w hopen
    rw [e]
    subst h1
    simpa [allowedEntries, deniedEntries] using ha
  by_cases h2 : event = "sys.addaudithook"
  · have e : default_spython_hook rt event args userData w =
        hook_addaudithook event args userData w := by
      unfold default_spython_hook
      rw [if_neg h1, if_pos h2]
    have ha := logs_addaudithook event args userData w hopen
    rw [e]
    subst h2
    simpa [allowedEntries, deniedEntries] using ha
  by_cases h3 : event = "spython.open_for_import"
  · have e : default_spython_hook rt event args userData w =
        hook_open_for_import rt event args userData w := by
      unfold default_spython_hook
      rw [if_neg h1, if_neg h2, if_pos h3]
    have ha := logs_open_for_import rt event args userData w hopen
    rw [e]
    subst h3
    simpa [allowedEntries, deniedEntries] using ha
  by_cases h4 : event = "import"
  · have e : default_spython_hook rt event args userData w =
        hook_import rt event args userData w := by
      unfold default_spython_hook
      rw [if_neg h1, if_neg h2, if_neg h3, if_pos h4]
    have ha := logs_import rt event args userData w hopen
    rw [e]
    subst h4
    simpa [allowedEntries, deniedEntries] using ha
  by_cases h5 : event = "compile"
  · have e : default_spython_hook rt event args userData w =
        hook_compile rt event args userData w := by
      unfold default_spython_hook
      rw [if_neg h1, if_neg h2, if_neg h3, if_neg h4, if_pos h5]
    have ha := logs_compile rt event args userData w hopen
    rw [e]
    subst h5
    simpa [allowedEntries, deniedEntries] using ha
  by_cases h6 : event = "code.__new__"
  · have e : default_spython_hook rt event args userData w =
        hook_code_new rt event args userData w := by
      unfold default_spython_hook
      rw [if_neg h1, if_neg h2, if_neg h3, if_neg h4, if_neg h5, if_pos h6]
    have ha := logs_code_new rt event args userData w hopen
    rw [e]
    subst h6
    simpa [allowedEntries, deniedEntries] using ha
  by_cases h7 : event = "exec"
  · have e : default_spython_hook rt event args userData w =
        hook_exec rt event args userData w := by
      unfold default_spython_hook
      rw [if_neg h1, if_neg h2, if_neg h3, if_neg h4, if_neg h5, if_neg h6, if_pos h7]
    have ha := logs_exec rt event args userData w hopen
    rw [e]
    subst h7
    simpa [allowedEntries, deniedEntries] using ha
  by_cases h8 : event = "id"
  · have e : default_spython_hook rt event args userData w =
        hook_id rt event args userData w := by
      unfold default_spython_hook
      rw [if_neg h1, if_neg h2, if_neg h3, if_neg h4, if_neg h5, if_neg h6, if_neg h7, if_pos h8]
    have ha := logs_id rt event args userData w hopen
    rw [e]
    subst h8
    simpa [allowedEntries, deniedEntries] using ha
  by_cases h9 : event = "object.__setattr__"
  · have e : default_spython_hook rt event args userData w =
        hook_setattr rt event args userData w := by
      unfold default_spython_hook
      rw [if_neg h1, if_neg h2, if_neg h3, if_neg h4, if_neg h5, if_neg h6, if_neg h7, if_neg h8,
        if_pos h9]
    have ha := logs_setattr rt event args userData w hopen
    rw [e]
    subst h9
    simpa [allowedEntries, deniedEntries] using ha
  by_cases h10 : event = "object.__delattr__"
  · have e : default_spython_hook rt event args userData w =
        hook_delattr rt event args userData w := by
      unfold default_spython_hook
      rw [if_neg h1, if_neg h2, if_neg h3, if_neg h4, if_neg h5, if_neg h6, if_neg h7, if_neg h8,
        if_neg h9, if_pos h10]
    have ha := logs_delattr rt event args userData w hopen
    rw [e]
    subst h10
    simpa [allowedEntries, deniedEntries] using ha
  by_cases h11 : event = "pickle.find_class"
  · have e : default_spython_hook rt event args userData w =
        hook_pickle_find_class rt event args userData w := by
      unfold default_spython_hook
      rw [if_neg h1, if_neg h2, if_neg h3, if_neg h4, if_neg h5, if_neg h6, if_neg h7, if_neg h8,
        if_neg h9, if_neg h10, if_pos h11]
    have ha := logs_pickle_find_class rt event args userData w hopen
    rw [e]
    subst h11
    simpa [allowedEntries, deniedEntries] using ha
  by_cases h12 : event = "system"
  · have e : default_spython_hook rt event args userData w =
        hook_system rt event args userData w := by
      unfold default_spython_hook
      rw [if_neg h1, if_neg h2, if_neg h3, if_neg h4, if_neg h5, if_neg h6, if_neg h7, if_neg h8,
        if_neg h9, if_neg h10, if_neg h11, if_pos h12]
    have ha := logs_system rt event args userData w hopen
    rw [e]
    subst h12
    simpa [allowedEntries, deniedEntries] using ha
  have e : default_spython_hook rt event args userData w =
      (match rt.reprTuple args with
        | .error e => (-1, w.setErr e)
        | .ok msg => (0, fprintf w userData (logLine event msg))) := by
    unfold default_spython_hook
    rw [if_neg h1, if_neg h2, if_neg h3, if_neg h4, if_neg h5, if_neg h6, if_neg h7, if_neg h8,
      if_neg h9, if_neg h10, if_neg h11, if_neg h12]
  have ha := logs_fallback rt event args userData w hopen
  rw [e]
  simpa [allowedEntries, deniedEntries, h2, h6, h9, h10, h11, h12] using ha

/-- C11 (amended): every call of `default_spython_hook` on an open log stream
returns `0` or `-1` and appends only entries in the format `<event-name>:
<message>` and a newline (the message may itself span several lines). A call that
allows appends exactly one entry, and none for `object.__setattr__` and
`object.__delattr__` before the runtime is initialised. A call that denies
appends exactly `deniedEntries` entries: one for `sys.addaudithook`; one for
`system` and `pickle.find_class` when the message can be rendered; for a
`code.__new__` event whose arguments can be parsed and whose file name can be
rendered, two when the bytecode is a bytes object and one when it is not; none in
every other case. -/
theorem C11_log_entries_of_a_decision (rt : Runtime) (event : String)
    (args : List PyObject) (userData : FILE) (w : World)
    (hopen : (w.stream userData).closed = false) :
    ((default_spython_hook rt event args userData w).1 = 0 ∨
      (default_spython_hook rt event args userData w).1 = -1) ∧
    ∃ entries : List String,
      ((default_spython_hook rt event args userData w).2.stream userData).written =
        (w.stream userData).written ++ entries ∧
      (∀ e ∈ entries, isLogEntry event e) ∧
      ((default_spython_hook rt event args userData w).1 = 0 →
        entries.length = allowedEntries event w.pyReady) ∧
      ((default_spython_hook rt event args userData w).1 = -1 →
        entries.length = deniedEntries rt event args) :=
  logs_default rt event args userData w hopen

/-- C11 for an `exec` event on a fresh log file: one entry, `exec: <object>`. -/
theorem C11_log_entries_of_a_decision_witness :
    (({} : World).stream FILE.log).closed = false ∧
    (((default_spython_hook demoRuntime "exec" [.object 1] FILE.log {}).1 = 0 ∨
      (default_spython_hook demoRuntime "exec" [.object 1] FILE.log {}).1 = -1) ∧
    ∃ entries : List String,
      ((default_spython_hook demoRuntime "exec" [.object 1] FILE.log {}).2.stream
        FILE.log).written = (({} : World).stream FILE.log).written ++ entries ∧
      (∀ e ∈ entries, isLogEntry "exec" e) ∧
      ((default_spython_hook demoRuntime "exec" [.object 1] FILE.log {}).1 = 0 →
        entries.length = allowedEntries "exec" ({} : World).pyReady) ∧
      ((default_spython_hook demoRuntime "exec" [.object 1] FILE.log {}).1 = -1 →
        entries.length = deniedEntries demoRuntime "exec" [.object 1])) :=
  ⟨rfl, C11_log_entries_of_a_decision demoRuntime "exec" [.object 1] FILE.log {} rfl⟩

/-- C11 as stated fails in four ways: the entry of a module import with no known
file spans four lines, a denied code-object construction writes two entries, an
attribute assignment before the runtime is initialised is allowed without any
entry, and an `import` event with a single argument is denied without any
entry. -/
theorem C11_counterexample_lines_per_decision :
    ((default_spython_hook demoRuntime "import"
        [.unicode "mod", .none, .object 1, .object 2, .object 3] FILE.log {}).2.stream
        FILE.log).written =
      ["import: importing mod:\n    sys.path=<object>\n    sys.meta_path=<object>\n" ++
        "    sys.path_hooks=<object>\n"] ∧
    lineCount ("import: importing mod:\n    sys.path=<object>\n    sys.meta_path=<object>\n" ++
        "    sys.path_hooks=<object>\n") = 4 ∧
    ((default_spython_hook demoRuntime "code.__new__"
        (codeNewArgs [125, 3] (.unicode "<string>") (.unicode "f") 0 0 1 1 0)
        FILE.log {}).2.stream FILE.log).written =
      ["code.__new__: compiling: '<string>'\n",
       "code.__new__: code stores to local 3 but only allocates 1\n"] ∧
    default_spython_hook demoRuntime "object.__setattr__"
        [.object 1, .unicode "x", .long 1] FILE.log {} = (0, {}) ∧
    default_spython_hook demoRuntime "import" [.unicode "mod"] FILE.log {} =
      (-1, ({ pyErr := some (countError 5 1) } : World)) ∧
    countError 5 1 = ⟨"TypeError", "function takes exactly 5 arguments (1 given)"⟩ := by
  decide

/-! ## Argument tuples of the wrong length -/

/-- The hooks that read their arguments with `PyArg_ParseTuple` deny every tuple
of the wrong length. -/
theorem arity_checked_hooks_deny (rt : Runtime) (event : String) (args : List PyObject)
    (f : FILE) (w : World) :
    (args.length ≠ 5 → (hook_import rt event args f w).1 = -1) ∧
    (args.length ≠ 2 → (hook_compile rt event args f w).1 = -1) ∧
    (args.length ≠ 8 → (hook_code_new rt event args f w).1 = -1) ∧
    (args.length ≠ 1 → (hook_exec rt event args f w).1 = -1) ∧
    (args.length ≠ 3 → (hook_setattr rt event args f w).1 = -1) ∧
    (args.length ≠ 2 → (hook_delattr rt event args f w).1 = -1) := by
  refine ⟨?_, ?_, ?_, ?_, ?_, ?_⟩
  · intro h
    unfold hook_import
    split
    · simp at h
    · rfl
  · intro h
    unfold hook_compile
    split
    · simp at h
    · rfl
  · intro h
    unfold hook_code_new
    split
    · simp at h
    · rfl
  · intro h
    unfold hook_exec
    split
    · simp at h
    · rfl
  · intro h
    unfold hook_setattr
    split
    · simp at h
    · rfl
  · intro h
    unfold hook_delattr
    split
    · simp at h
    · rfl

/-- C12: `hook_open_for_import` and `hook_id` fetch their items with
`PyTuple_GetItem` and never check the length of the tuple. The
`spython.open_for_import` event with one item, or with three, and the `id` event
with two items are allowed (result `0`), with an entry written to the log, where
the hooks that parse with `PyArg_ParseTuple` deny every tuple of the wrong
length. -/
theorem C12_unchecked_tuple_length_is_allowed :
    default_spython_hook demoRuntime "spython.open_for_import" [.unicode "mod.py"]
        FILE.log {} =
      (0, { log := { written := ["spython.open_for_import: 'mod.py'; allowed = <NULL>\n"] },
            pyErr := some ⟨"IndexError", "tuple index out of range"⟩ }) ∧
    default_spython_hook demoRuntime "spython.open_for_import"
        [.unicode "mod.py", .unicode "yes", .unicode "extra"] FILE.log {} =
      (0, { log := { written := ["spython.open_for_import: 'mod.py'; allowed = yes\n"] } }) ∧
    default_spython_hook demoRuntime "id" [.long 255, .long 1] FILE.log {} =
      (0, { log := { written := ["id: 0xff\n"] } }) ∧
    (∀ (rt : Runtime) (args : List PyObject) (f : FILE) (w : World),
      (args.length ≠ 5 → (default_spython_hook rt "import" args f w).1 = -1) ∧
      (args.length ≠ 2 → (default_spython_hook rt "compile" args f w).1 = -1) ∧
      (args.length ≠ 8 → (default_spython_hook rt "code.__new__" args f w).1 = -1) ∧
      (args.length ≠ 1 → (default_spython_hook rt "exec" args f w).1 = -1) ∧
      (args.length ≠ 3 → (default_spython_hook rt "object.__setattr__" args f w).1 = -1) ∧
      (args.length ≠ 2 → (default_spython_hook rt "object.__delattr__" args f w).1 = -1)) := by
  refine ⟨by decide, by decide, by decide, ?_⟩
  intro rt args f w
  have e1 : default_spython_hook rt "import" args f w = hook_import rt "import" args f w := by
    simp [default_spython_hook]
  have e2 : default_spython_hook rt "compile" args f w =
      hook_compile rt "compile" args f w := by
    simp [default_spython_hook]
  have e3 : default_spython_hook rt "code.__new__" args f w =
      hook_code_new rt "code.__new__" args f w := by
    simp [default_spython_hook]
  have e4 : default_spython_hook rt "exec" args f w = hook_exec rt "exec" args f w := by
    simp [default_spython_hook]
  have e5 : default_spython_hook rt "object.__setattr__" args f w =
      hook_setattr rt "object.__setattr__" args f w := by
    simp [default_spython_hook]
  have e6 : default_spython_hook rt "object.__delattr__" args f w =
      hook_delattr rt "object.__delattr__" args f w := by
    simp [default_spython_hook]
  rw [e1, e2, e3, e4, e5, e6]
  exact ⟨(arity_checked_hooks_deny rt _ args f w).1,
    (arity_checked_hooks_deny rt _ args f w).2.1,
    (arity_checked_hooks_deny rt _ args f w).2.2.1,
    (arity_checked_hooks_deny rt _ args f w).2.2.2.1,
    (arity_checked_hooks_deny rt _ args f w).2.2.2.2.1,
    (arity_checked_hooks_deny rt _ args f w).2.2.2.2.2⟩

end SPython
